import Mathlib

/-!
# Reservation service (`services/reservation.go`)

A shallow embedding of the claim protocol `TryReserveBata`, of the store it talks
to (tables `batas` and `reservas`), of `ResetBatas`, and of the set-up and worker
tasks of `SimulateConcurrentReservations`.

Conventions.
* Go `int` values are `Int`; lengths, loop counters and clock readings are `Nat`.
* Time is counted in milliseconds.
* The store is an external collaborator: every call the Go code makes to it is
  answered by an explicit outcome record, and the SQL text of each statement is
  given a meaning on an explicit store state.
* `rand.Intn n` is `raw % n` for a raw draw supplied by the caller.
-/

namespace Reservas

/-! ## The store: tables `batas` and `reservas` -/

/-- Row of table `batas` (columns used by the service: `id_bata`, `disponible`). -/
structure Bata where
  id_bata : Int
  disponible : Bool
  deriving DecidableEq, Repr

/-- Row of table `reservas` (columns written by the `INSERT` of `TryReserveBata`). -/
structure Reserva where
  id_estudiante : Int
  id_bata : Int
  id_laboratorio : Int
  id_estado : Int
  fecha_solicitud : Nat
  fecha_inicio : Nat
  fecha_fin : Nat
  deriving DecidableEq, Repr

/-- Store state: the two tables. -/
structure Store where
  batas : List Bata
  reservas : List Reserva
  deriving DecidableEq, Repr

/-- Interval `30 minutes` in milliseconds. -/
def min30 : Nat := 30 * 60 * 1000

/-- Interval `2 hours 30 minutes` in milliseconds. -/
def h2min30 : Nat := (2 * 60 + 30) * 60 * 1000

/-- Row predicate `id_estado IN (1, 2, 3) AND fecha_fin > NOW()`. -/
def Reserva.activa (now : Nat) (r : Reserva) : Bool :=
  (r.id_estado == 1 || r.id_estado == 2 || r.id_estado == 3) && decide (r.fecha_fin > now)

/-- The query
`SELECT EXISTS(SELECT 1 FROM reservas WHERE id_estudiante = $1 AND id_estado IN (1,2,3) AND fecha_fin > NOW())`. -/
def tieneReservaActiva (s : Store) (now : Nat) (userID : Int) : Bool :=
  s.reservas.any fun r => r.id_estudiante == userID && r.activa now

/-- The rows selected by `SELECT disponible FROM batas WHERE id_bata = $1 AND disponible = true`. -/
def selectDisponible (s : Store) (bataID : Int) : List Bata :=
  s.batas.filter fun b => b.id_bata == bataID && b.disponible

/-- The statement `UPDATE batas SET disponible = false WHERE id_bata = $1`. -/
def updateNoDisponible (batas : List Bata) (bataID : Int) : List Bata :=
  batas.map fun b => if b.id_bata == bataID then { b with disponible := false } else b

/-- The row of
`INSERT INTO reservas (...) VALUES ($1, $2, 1, 2, NOW(), NOW() + interval '30 minutes', NOW() + interval '2 hours 30 minutes')`. -/
def nuevaReserva (now : Nat) (userID bataID : Int) : Reserva :=
  { id_estudiante := userID, id_bata := bataID, id_laboratorio := 1, id_estado := 2,
    fecha_solicitud := now, fecha_inicio := now + min30, fecha_fin := now + h2min30 }

/-- The two writes of one committed `TryReserveBata` transaction. -/
def aplicarReserva (s : Store) (now : Nat) (userID bataID : Int) : Store :=
  { batas := updateNoDisponible s.batas bataID,
    reservas := s.reservas ++ [nuevaReserva now userID bataID] }

/-- The two statements of `ResetBatas`:
`UPDATE batas SET disponible = true` and `DELETE FROM reservas WHERE id_laboratorio = 1`. -/
def resetStore (s : Store) : Store :=
  { batas := s.batas.map fun b => { b with disponible := true },
    reservas := s.reservas.filter fun r => !(r.id_laboratorio == 1) }

/-- The step of `ResetBatas` that fails. -/
inductive ResetError where
  | iniciar
  | actualizar
  | eliminar
  | confirmar
  deriving DecidableEq, Repr

/-- The function `ResetBatas`: `falla` names the step that fails, if any. On a failure the
error is returned and the transaction is rolled back (or never opened); otherwise both
statements are committed. -/
def ResetBatas (falla : Option ResetError) (s : Store) : Option ResetError × Store :=
  match falla with
  | some e => (some e, s)
  | none => (none, resetStore s)

/-- The rows returned by `SELECT ... FROM batas b WHERE b.disponible = true ORDER BY b.id_bata`. -/
def disponibles (s : Store) : List Bata :=
  (s.batas.filter fun b => b.disponible).insertionSort fun a b => a.id_bata ≤ b.id_bata

/-! ## `TryReserveBata`: control flow against the store interface -/

/-- Outcome of `tx.QueryRow(...).Scan(&tieneReserva)`. -/
inductive ClaimRead where
  | value (tieneReserva : Bool)
  | err
  deriving DecidableEq, Repr

/-- Outcome of `tx.QueryRow(... FOR UPDATE SKIP LOCKED ...).Scan(&bataDisponible)`. -/
inductive LockRead where
  | row (bataDisponible : Bool)
  | errNoRows
  | err
  deriving DecidableEq, Repr

/-- Outcome of `tx.Commit(ctx)`: `nil`, a `*pgconn.PgError` with its code, or another error
(a lost connection, an expired `ctx`). A `PgError` is the answer of the server, which has
rolled the transaction back; another error can reach the client although the server has
committed, and `aplicado` tells whether it had. -/
inductive CommitRes where
  | ok
  | pgError (code : String)
  | otherError (aplicado : Bool)
  deriving DecidableEq, Repr

/-- What the store answers during one attempt cycle. A field is consulted only when
the cycle reaches the corresponding call. -/
structure Cycle where
  beginOk : Bool
  claim : ClaimRead
  lock : LockRead
  updateOk : Bool
  insertOk : Bool
  commit : CommitRes
  deriving DecidableEq, Repr

/-- The value of `txOpts.IsoLevel` after the `switch isolationLevel`. -/
inductive TxIsoLevel where
  | unset
  | readCommitted
  | repeatableRead
  | serializable
  deriving DecidableEq, Repr

/-- The `switch isolationLevel` of `TryReserveBata`. -/
def txIsoLevel (isolationLevel : String) : TxIsoLevel :=
  if isolationLevel = "READ COMMITTED" then .readCommitted
  else if isolationLevel = "REPEATABLE READ" then .repeatableRead
  else if isolationLevel = "SERIALIZABLE" then .serializable
  else .unset

/-- Calls made by `TryReserveBata`, in program order. -/
inductive Ev where
  | sleep (ms : Nat)
  | beginTx (iso : TxIsoLevel)
  | queryClaim
  | lockRead
  | update
  | insert
  | commit
  | rollback
  deriving DecidableEq, Repr

/-- The non-nil errors `TryReserveBata` can return. -/
inductive ReserveError where
  /-- The error `fmt.Errorf("error al confirmar transacción: %w", err)`. -/
  | confirmar (cause : CommitRes)
  /-- The error `fmt.Errorf("máximo de reintentos alcanzado para usuario %d y bata %d", userID, bataID)`. -/
  | maxReintentos (userID bataID : Int)
  deriving DecidableEq, Repr

/-- How one pass through the body of the `for attempt` loop ends. -/
inductive CycleEnd where
  | continuar
  | ret (ok : Bool) (err : Option ReserveError)
  deriving DecidableEq, Repr

/-- The call `rand.Intn(n)` on a raw draw. -/
def Intn (raw n : Nat) : Nat := raw % n

/-- The sum `baseDelay + jitter` of `TryReserveBata`, in milliseconds. -/
def backoffDelay (attempt raw : Nat) : Nat :=
  attempt * attempt * 20 + Intn raw 100

/-- The `if attempt > 0 { ... time.Sleep(baseDelay + jitter) }` block. -/
def sleepBefore (attempt raw : Nat) : List Ev :=
  if attempt > 0 then [Ev.sleep (backoffDelay attempt raw)] else []

/-- The test `pgErr.Code == "40001" || pgErr.Code == "40P01"`. -/
def esConflicto (code : String) : Bool :=
  code == "40001" || code == "40P01"

/-- The body of the `for attempt` loop after the back-off sleep: the calls it issues
and how it ends. -/
def attemptCycle (c : Cycle) (iso : TxIsoLevel) : List Ev × CycleEnd :=
  if !c.beginOk then ([.beginTx iso], .continuar)
  else match c.claim with
  | .err => ([.beginTx iso, .queryClaim, .rollback], .continuar)
  | .value true => ([.beginTx iso, .queryClaim, .rollback], .ret false none)
  | .value false =>
    match c.lock with
    | .errNoRows => ([.beginTx iso, .queryClaim, .lockRead, .rollback], .ret false none)
    | .err => ([.beginTx iso, .queryClaim, .lockRead, .rollback], .continuar)
    | .row _ =>
      if !c.updateOk then
        ([.beginTx iso, .queryClaim, .lockRead, .update, .rollback], .continuar)
      else if !c.insertOk then
        ([.beginTx iso, .queryClaim, .lockRead, .update, .insert, .rollback], .continuar)
      else match c.commit with
      | .ok => ([.beginTx iso, .queryClaim, .lockRead, .update, .insert, .commit], .ret true none)
      | .pgError code =>
        if esConflicto code then
          ([.beginTx iso, .queryClaim, .lockRead, .update, .insert, .commit], .continuar)
        else
          ([.beginTx iso, .queryClaim, .lockRead, .update, .insert, .commit],
            .ret false (some (.confirmar (.pgError code))))
      | .otherError aplicado =>
        ([.beginTx iso, .queryClaim, .lockRead, .update, .insert, .commit],
          .ret false (some (.confirmar (.otherError aplicado))))

/-- Result of a call of `TryReserveBata`: the returned pair, and the calls issued,
grouped by attempt cycle (`cycles[n]` are the calls of cycle `n`). -/
structure Outcome where
  ok : Bool
  err : Option ReserveError
  cycles : List (List Ev)
  deriving DecidableEq, Repr

/-- The limit `maxRetries` of `TryReserveBata`. -/
def maxRetries (isolationLevel : String) : Nat :=
  if isolationLevel = "SERIALIZABLE" then 20 else 10

/-- The loop `for attempt := 0; attempt < maxRetries; attempt++`, with `remaining`
the number of iterations left (`maxRetries - attempt`). -/
def tryLoop (store : Nat → Cycle) (rnd : Nat → Nat) (userID bataID : Int) (iso : TxIsoLevel) :
    (remaining attempt : Nat) → Outcome
  | 0, _ => { ok := false, err := some (.maxReintentos userID bataID), cycles := [] }
  | remaining + 1, attempt =>
    let cyc := attemptCycle (store attempt) iso
    let evs := sleepBefore attempt (rnd attempt) ++ cyc.1
    match cyc.2 with
    | .ret ok err => { ok := ok, err := err, cycles := [evs] }
    | .continuar =>
      let r := tryLoop store rnd userID bataID iso remaining (attempt + 1)
      { r with cycles := evs :: r.cycles }

/-- The function `TryReserveBata`: `store n` is what the calls of attempt cycle `n` return to
the code, `rnd n` the raw random draw of the jitter before cycle `n`. Every call takes the
`ctx` of line 80, so a call made after its deadline returns an error; `bajoCtx` gives the
returns that this deadline leaves possible and `TryReserveBataCtx` runs the function on
them. -/
def TryReserveBata (store : Nat → Cycle) (rnd : Nat → Nat) (userID bataID : Int)
    (isolationLevel : String) : Outcome :=
  tryLoop store rnd userID bataID (txIsoLevel isolationLevel) (maxRetries isolationLevel) 0

/-- The calls of attempt cycle `n`: the back-off sleep, then the transaction. -/
def cycleEvs (store : Nat → Cycle) (rnd : Nat → Nat) (iso : TxIsoLevel) (n : Nat) : List Ev :=
  sleepBefore n (rnd n) ++ (attemptCycle (store n) iso).1

/-! ### The deadline of `ctx` -/

/-- The timeout of `context.WithTimeout(context.Background(), 10*time.Second)`, in
milliseconds. -/
def ctxTimeout : Nat := 10 * 1000

/-- The back-off slept between the creation of `ctx` and the transaction of cycle `n`: the
sleeps before cycles 1 to `n` (`time.Sleep` does not observe `ctx`). -/
def dormido (rnd : Nat → Nat) : Nat → Nat
  | 0 => 0
  | n + 1 => dormido rnd n + backoffDelay (n + 1) (rnd (n + 1))

/-- What the calls of a cycle return when `ctx` has expired before the cycle begins:
`BeginTx(ctx, txOpts)` fails, as would every later call. -/
def cicloCtxExpirado : Cycle :=
  { beginOk := false, claim := .err, lock := .err, updateOk := false, insertOk := false,
    commit := .otherError false }

/-- What the calls of cycle `n` return to the code under the `ctx` of the call: the answers
`store n` of the store while the deadline has not passed when the cycle begins, failures
afterwards. `gastado n` is the time spent outside the back-off sleeps (in the calls) before
cycle `n`. A deadline that passes in the middle of a cycle is a failing answer of `store`. -/
def bajoCtx (store : Nat → Cycle) (rnd gastado : Nat → Nat) : Nat → Cycle :=
  fun n => if ctxTimeout ≤ dormido rnd n + gastado n then cicloCtxExpirado else store n

/-- The function `TryReserveBata` with its `ctx`: `store n` is what the store would answer in
cycle `n`, and the code receives it only while the deadline has not passed. -/
def TryReserveBataCtx (store : Nat → Cycle) (rnd gastado : Nat → Nat) (userID bataID : Int)
    (isolationLevel : String) : Outcome :=
  TryReserveBata (bajoCtx store rnd gastado) rnd userID bataID isolationLevel

/-! ### The effect of a call on the store -/

/-- The last transaction of the call is in the store: the call returned `(true, nil)`, or its
`tx.Commit` returned an error that is not a `PgError` after the server had committed. -/
def Outcome.aplicado (o : Outcome) : Bool :=
  o.ok || decide (o.err = some (.confirmar (.otherError true)))

/-- The store after a call of `TryReserveBata` that started on store `s` and whose last
transaction began at time `now`: the two writes are in the store exactly when the server
committed that transaction; every other transaction of the call was rolled back. -/
def storeAfter (s : Store) (now : Nat) (userID bataID : Int) (o : Outcome) : Store :=
  if o.aplicado then aplicarReserva s now userID bataID else s

/-! ### Kinds of store answers -/

/-- The commit error is a conflict-abort signal: a `*pgconn.PgError` with code `40001` or `40P01`. -/
def CommitRes.conflicto : CommitRes → Prop
  | .pgError code => code = "40001" ∨ code = "40P01"
  | _ => False

/-- The commit failed and the failure is not a conflict-abort signal. -/
def CommitRes.fatal : CommitRes → Prop
  | .ok => False
  | .pgError code => ¬ (code = "40001" ∨ code = "40P01")
  | .otherError _ => True

/-- The transaction opens, the actor has no active claim, the resource is locked as
available and both writes succeed, so the cycle reaches `tx.Commit`. -/
def Cycle.llegaACommit (c : Cycle) : Prop :=
  c.beginOk = true ∧ c.claim = .value false ∧ (∃ d, c.lock = .row d) ∧
    c.updateOk = true ∧ c.insertOk = true

/-- A failure before the commit: of `BeginTx`, of the active-claim query, of the lock read
(other than `ErrNoRows`), of the `UPDATE` or of the `INSERT`. -/
def Cycle.fallaPrevia (c : Cycle) : Prop :=
  c.beginOk = false ∨
  (c.beginOk = true ∧ c.claim = .err) ∨
  (c.beginOk = true ∧ c.claim = .value false ∧ c.lock = .err) ∨
  (c.beginOk = true ∧ c.claim = .value false ∧ (∃ d, c.lock = .row d) ∧ c.updateOk = false) ∨
  (c.beginOk = true ∧ c.claim = .value false ∧ (∃ d, c.lock = .row d) ∧ c.updateOk = true ∧
    c.insertOk = false)

/-- The call reaches attempt cycle `n`: `n` is below the ceiling and every earlier cycle
ended with `continue`. -/
def llegaACiclo (store : Nat → Cycle) (isolationLevel : String) (n : Nat) : Prop :=
  n < maxRetries isolationLevel ∧
    ∀ m, m < n → (attemptCycle (store m) (txIsoLevel isolationLevel)).2 = .continuar

/-! ### Sample store answers -/

/-- Cycle in which every call succeeds. -/
def cicloOk : Cycle :=
  { beginOk := true, claim := .value false, lock := .row true, updateOk := true,
    insertOk := true, commit := .ok }

/-- Cycle whose commit fails with `serialization_failure`. -/
def cicloConflicto : Cycle := { cicloOk with commit := .pgError "40001" }

/-- First cycle answers `c`, every later cycle succeeds. -/
def primeroLuegoOk (c : Cycle) : Nat → Cycle :=
  fun n => if n = 0 then c else cicloOk

/-! ## `SimulateConcurrentReservations`: the set-up before the workers start -/

/-- Run-time panics of the Go code of the set-up. -/
inductive Panic where
  | divideByZero
  | sliceBounds
  | indexOutOfRange
  deriving DecidableEq, Repr

/-- Ways the set-up stops before any worker is started: a panic, or one of the early
`return`s. -/
inductive Stop where
  | panic (p : Panic)
  | errorEstudiantes
  | errorBatas
  | sinBatas
  deriving DecidableEq, Repr

/-- Result of a step of the set-up: a value, or the reason the set-up stopped. -/
inductive Res (α : Type) where
  | ok (a : α)
  | stop (s : Stop)
  deriving DecidableEq, Repr

/-- Go integer division `a / b`: truncated, panics on a zero divisor. -/
def goDiv (a b : Int) : Res Int :=
  if b = 0 then .stop (.panic .divideByZero) else .ok (Int.tdiv a b)

/-- Go integer remainder `a % b`: truncated, panics on a zero divisor. -/
def goMod (a b : Int) : Res Int :=
  if b = 0 then .stop (.panic .divideByZero) else .ok (Int.tmod a b)

/-- Go slice expression `xs[:hi]`. -/
def goSliceTo (xs : List Int) (hi : Int) : Res (List Int) :=
  if 0 ≤ hi ∧ hi ≤ xs.length then .ok (xs.take hi.toNat) else .stop (.panic .sliceBounds)

/-- Go index expression `xs[i]`. -/
def goIndex (xs : List Int) (i : Int) : Res Int :=
  if 0 ≤ i then
    match xs[i.toNat]? with
    | some x => .ok x
    | none => .stop (.panic .indexOutOfRange)
  else .stop (.panic .indexOutOfRange)

/-- The function `GetValidStudentIDs` on the answer of the store (`none`: the query, a scan
or the row iteration failed). -/
def GetValidStudentIDs (rows : Option (List Int)) : Option (List Int) :=
  match rows with
  | none => none
  | some ids => if ids.length = 0 then none else some ids

/-- The function `GetAvailableBatas`; `falla` tells whether the query, a scan or the row
iteration fails. -/
def GetAvailableBatas (falla : Bool) (s : Store) : Option (List Bata) :=
  if falla then none else some (disponibles s)

/-- The capacity `maxConcurrent` of the admission gate `sem`. -/
def maxConcurrent (isolationLevel : String) (userCount : Int) : Nat :=
  if isolationLevel = "SERIALIZABLE" then
    if userCount > 20 then 3 else 5
  else if userCount > 20 then 15
  else 10

/-- The loop `for j := 0; j < bataPorUsuario && j+start < len(batasArray); j++` that fills
`batasUsuario`. `remaining` bounds the iterations left; started at `bataPorUsuario` it is
never the reason the loop stops, because `j < bataPorUsuario` fails first. -/
def batasUsuarioLoop (batasArray : List Int) (start bataPorUsuario : Int) :
    (remaining : Nat) → (j : Int) → (batasUsuario : List Int) → Res (List Int)
  | 0, _, batasUsuario => .ok batasUsuario
  | remaining + 1, j, batasUsuario =>
    if j < bataPorUsuario ∧ j + start < batasArray.length then
      match goIndex batasArray (j + start) with
      | .stop e => .stop e
      | .ok x =>
        batasUsuarioLoop batasArray start bataPorUsuario remaining (j + 1) (batasUsuario ++ [x])
    else .ok batasUsuario

/-- The body of `for i, userID := range users`: the preferred sublist of the actor at
position `i`. -/
def batasUsuario (batasArray : List Int) (bataPorUsuario : Int) (i : Nat) : Res (List Int) :=
  match goMod (i * bataPorUsuario) batasArray.length with
  | .stop e => .stop e
  | .ok start => batasUsuarioLoop batasArray start bataPorUsuario bataPorUsuario.toNat 0 []

/-- The loop `for i, userID := range users` from position `i` on: the sublists in order of
position. -/
def preferidasDesde (batasArray : List Int) (bataPorUsuario : Int) :
    (users : List Int) → (i : Nat) → Res (List (List Int))
  | [], _ => .ok []
  | _ :: rest, i =>
    match batasUsuario batasArray bataPorUsuario i with
    | .stop e => .stop e
    | .ok l =>
      match preferidasDesde batasArray bataPorUsuario rest (i + 1) with
      | .stop e => .stop e
      | .ok ls => .ok (l :: ls)

/-- Go map assignment `m[k] = v` on an association list. -/
def mapSet {β : Type} (m : List (Int × β)) (k : Int) (v : β) : List (Int × β) :=
  (k, v) :: m.filter fun e => !(e.1 == k)

/-- Go map read `m[k]` (`none` for an absent key). -/
def mapGet {β : Type} (m : List (Int × β)) (k : Int) : Option β :=
  (m.find? fun e => e.1 == k).map Prod.snd

/-- The assignments `bataDist[userID] = batasUsuario` in order of position. -/
def llenarBataDist : List Int → List (List Int) → List (Int × List Int) → List (Int × List Int)
  | userID :: users, l :: ls, m => llenarBataDist users ls (mapSet m userID l)
  | _, _, m => m

/-- What the set-up hands to the workers. -/
structure Setup where
  userCount : Int
  users : List Int
  initialBatas : List Bata
  maxConcurrent : Nat
  bataPorUsuario : Int
  batasArray : List Int
  preferidas : List (List Int)
  bataDist : List (Int × List Int)
  deriving DecidableEq, Repr

/-- The set-up of `SimulateConcurrentReservations`, up to the launch of the workers.
`estudiantes` is the answer of the store to the student query, `initial` the result of the
first `GetAvailableBatas`; `barajarUsuarios` and `barajarBatas` are the two `rand.Shuffle`
calls. -/
def simulateSetup (barajarUsuarios barajarBatas : List Int → List Int)
    (estudiantes : Option (List Int)) (initial : Option (List Bata)) (userCount : Int)
    (isolationLevel : String) : Res Setup :=
  match GetValidStudentIDs estudiantes with
  | none => .stop .errorEstudiantes
  | some validStudentIDs0 =>
    let userCount : Int :=
      if userCount > validStudentIDs0.length then validStudentIDs0.length else userCount
    let validStudentIDs := barajarUsuarios validStudentIDs0
    match goSliceTo validStudentIDs userCount with
    | .stop e => .stop e
    | .ok users =>
      match initial with
      | none => .stop .errorBatas
      | some initialBatas =>
        if initialBatas.length = 0 then .stop .sinBatas
        else
          match goDiv initialBatas.length userCount with
          | .stop e => .stop e
          | .ok q =>
            let bataPorUsuario := if q < 1 then 1 else q
            let batasArray := barajarBatas (initialBatas.map Bata.id_bata)
            match preferidasDesde batasArray bataPorUsuario users 0 with
            | .stop e => .stop e
            | .ok preferidas =>
              .ok { userCount := userCount, users := users, initialBatas := initialBatas,
                    maxConcurrent := maxConcurrent isolationLevel userCount,
                    bataPorUsuario := bataPorUsuario, batasArray := batasArray,
                    preferidas := preferidas,
                    bataDist := llenarBataDist users preferidas [] }

/-! ## The claim protocol on the store: one call as one atomic step -/

/-- Failures the environment injects into one attempt cycle. `lockSaltado`: the row is locked
by another transaction, so the `SKIP LOCKED` read returns no row. `commit` is the answer to
`tx.Commit`. -/
structure Fallas where
  beginFalla : Bool
  claimFalla : Bool
  lockFalla : Bool
  lockSaltado : Bool
  updateFalla : Bool
  insertFalla : Bool
  commit : CommitRes
  deriving DecidableEq, Repr

/-- No failure: every call succeeds and the transaction commits. -/
def sinFallas : Fallas :=
  { beginFalla := false, claimFalla := false, lockFalla := false, lockSaltado := false,
    updateFalla := false, insertFalla := false, commit := .ok }

/-- Environment of one call of `TryReserveBata`: the failures of cycle `n`, the raw jitter
draw before cycle `n`, and the time elapsed between the start of the call and the start of the
transaction of cycle `n` (back-off sleeps included). -/
structure Entorno where
  fallas : Nat → Fallas
  rnd : Nat → Nat
  reloj : Nat → Nat

/-- Environment without failures in which no time passes. -/
def entornoOk : Entorno :=
  { fallas := fun _ => sinFallas, rnd := fun _ => 0, reloj := fun _ => 0 }

/-- The store together with the clock (`NOW()`), in milliseconds. -/
structure Mundo where
  store : Store
  now : Nat
  deriving DecidableEq, Repr

/-- What the store in state `s` at time `now` answers in a cycle with failures `f`. -/
def observar (s : Store) (now : Nat) (userID bataID : Int) (f : Fallas) : Cycle :=
  { beginOk := !f.beginFalla,
    claim := if f.claimFalla then .err else .value (tieneReservaActiva s now userID),
    lock :=
      if f.lockFalla then .err
      else if f.lockSaltado then .errNoRows
      else match selectDisponible s bataID with
        | [] => .errNoRows
        | b :: _ => .row b.disponible,
    updateOk := !f.updateFalla,
    insertOk := !f.insertFalla,
    commit := f.commit }

/-- What the store answers in cycle `n` of a call started on `w` in environment `e`. -/
def observaciones (w : Mundo) (userID bataID : Int) (e : Entorno) : Nat → Cycle :=
  fun n => observar w.store (w.now + e.reloj n) userID bataID (e.fallas n)

/-- One call of `TryReserveBata` as one atomic step: every cycle reads the store the call
started on, the last cycle fixes the time of the transaction, and the writes are applied
exactly when the server committed that transaction (`Outcome.aplicado`). A cycle that does not
commit leaves nothing in the store; it only decides whether the loop goes on, which the
injected failures cover. A call made after the deadline of `ctx` fails, which is one of the
failure patterns. -/
def reservar (w : Mundo) (userID bataID : Int) (isolationLevel : String) (e : Entorno) :
    Outcome × Mundo :=
  let o := TryReserveBata (observaciones w userID bataID e) e.rnd userID bataID isolationLevel
  let t := w.now + e.reloj (o.cycles.length - 1)
  (o, { store := storeAfter w.store t userID bataID o, now := t })

/-- One call in a sequence of calls. -/
structure Peticion where
  userID : Int
  bataID : Int
  isolationLevel : String
  entorno : Entorno

/-- A sequence of calls of `TryReserveBata`, one after the other. -/
def ejecutar (w : Mundo) : List Peticion → Mundo
  | [] => w
  | p :: ps => ejecutar (reservar w p.userID p.bataID p.isolationLevel p.entorno).2 ps

/-! ### State predicates -/

/-- The active claims of actor `a` at time `now`. -/
def reservasActivas (s : Store) (now : Nat) (a : Int) : List Reserva :=
  s.reservas.filter fun r => r.id_estudiante == a && r.activa now

/-- Every actor has at most one active claim. -/
def UnaActivaPorActor (s : Store) (now : Nat) : Prop :=
  ∀ a, (reservasActivas s now a).length ≤ 1

/-- The claim rows that reference resource `b`. -/
def reservasDeBata (s : Store) (b : Int) : List Reserva :=
  s.reservas.filter fun r => r.id_bata == b

/-- The test claim rows (`id_laboratorio = 1`) that reference resource `b`. -/
def reservasPruebaDeBata (s : Store) (b : Int) : List Reserva :=
  s.reservas.filter fun r => r.id_bata == b && r.id_laboratorio == 1

/-- No double-binding, over all claim rows: each resource is referenced by at most one claim
row, only when every row of the resource has `disponible = false`, and two claim rows on the
same resource belong to the same actor. -/
def SinDobleReserva (s : Store) : Prop :=
  (∀ b, (reservasDeBata s b).length ≤ 1) ∧
  (∀ r ∈ s.reservas, ∀ x ∈ s.batas, x.id_bata = r.id_bata → x.disponible = false) ∧
  (∀ r1 ∈ s.reservas, ∀ r2 ∈ s.reservas, r1.id_bata = r2.id_bata →
    r1.id_estudiante = r2.id_estudiante)

/-- No double-binding, over the test claim rows (`id_laboratorio = 1`). -/
def SinDobleReservaPrueba (s : Store) : Prop :=
  (∀ b, (reservasPruebaDeBata s b).length ≤ 1) ∧
  (∀ r ∈ s.reservas, r.id_laboratorio = 1 →
    ∀ x ∈ s.batas, x.id_bata = r.id_bata → x.disponible = false) ∧
  (∀ r1 ∈ s.reservas, ∀ r2 ∈ s.reservas, r1.id_laboratorio = 1 → r2.id_laboratorio = 1 →
    r1.id_bata = r2.id_bata → r1.id_estudiante = r2.id_estudiante)

/-- Invariant behind no-double-binding: per resource, at most one test claim row, and when
there is one every row of the resource has `disponible = false`. -/
def InvPrueba (s : Store) : Prop :=
  ∀ b, (reservasPruebaDeBata s b).length ≤ 1 ∧
    (reservasPruebaDeBata s b ≠ [] → ∀ x ∈ s.batas, x.id_bata = b → x.disponible = false)

/-- Every claim row is a test claim row. -/
def SoloPrueba (s : Store) : Prop :=
  ∀ r ∈ s.reservas, r.id_laboratorio = 1

/-! ### Sample stores -/

/-- Three available resources, no claim. -/
def storeEjemplo : Store :=
  { batas := [⟨1, true⟩, ⟨2, true⟩, ⟨3, true⟩], reservas := [] }

/-- The sample store at time 1000. -/
def mundoEjemplo : Mundo := { store := storeEjemplo, now := 1000 }

/-- One resource, bound by a claim of actor 7 in laboratory 2. -/
def storeOtroLaboratorio : Store :=
  { batas := [⟨1, false⟩],
    reservas := [{ id_estudiante := 7, id_bata := 1, id_laboratorio := 2, id_estado := 2,
                   fecha_solicitud := 0, fecha_inicio := 0, fecha_fin := 5000 }] }

/-! ## `SimulateConcurrentReservations`: the workers and the summary

Each worker goroutine is a state machine; a schedule interleaves the workers one shared
interaction at a time: a `TryReserveBata` call, a `GetAvailableBatas` read, or the write
`assignments[id] = bID` under `mu` are steps of their own, so other workers can move between
the commit inside a call and the write to the map that follows it. The sleeps of a worker only
let time pass; every step receives the time elapsed before it. -/

/-- The message a worker sends on `results`. -/
inductive Mensaje where
  | preferida (bataID : Int)
  | intento (bataID : Int) (n : Nat)
  | agresivo (bataID : Int)
  | noPudo
  deriving DecidableEq, Repr

/-- Where a worker stands in its goroutine. -/
inductive Fase where
  /-- Blocked on `sem <- struct{}{}`. -/
  | esperando
  /-- In `for _, bID := range preferredBatas`, with the resources still to try. -/
  | preferidas (rest : List Int)
  /-- At the head of `for attempt := 0; attempt < maxRetries; attempt++`. -/
  | scan (attempt : Nat)
  /-- In `for _, bata := range availableBatas`. -/
  | scanBatas (attempt : Nat) (rest : List Int)
  /-- At the head of `for bataTry := 0; bataTry < 20; bataTry++`. -/
  | agresivo (attempt bataTry : Nat)
  /-- In `for _, bata := range allBatas`. -/
  | agresivoBatas (attempt bataTry : Nat) (rest : List Int)
  /-- In an `if success` block, before `mu.Lock()`: `TryReserveBata` has returned `(true, nil)`
  for `bataID`, the write `assignments[id] = bataID` and the message `m` are still to come. -/
  | registrando (bataID : Int) (m : Mensaje)
  /-- Returned, after sending the message; the gate slot is released. -/
  | fin (m : Mensaje)
  deriving DecidableEq, Repr

/-- The worker has returned. -/
def Fase.esFin : Fase → Bool
  | .fin _ => true
  | _ => false

/-- The worker is between a successful `TryReserveBata` and its write to `assignments`. -/
def Fase.porRegistrar : Fase → Bool
  | .registrando _ _ => true
  | _ => false

/-- The worker holds a slot of the admission gate. -/
def Fase.ocupa : Fase → Bool
  | .esperando => false
  | .fin _ => false
  | _ => true

/-- The limit `maxRetries` of the worker: 30, or 50 for `SERIALIZABLE`. -/
def maxRetriesScan (isolationLevel : String) : Nat :=
  if isolationLevel = "SERIALIZABLE" then 50 else 30

/-- The test `completionRate > 0.8` for `completionRate = float64(asignadas) / float64(userCount)`,
as the integer comparison `5 * asignadas > 4 * userCount` (the two agree for counts below
2^50, where the rounding of the quotient cannot cross the constant). -/
def superaOchentaPorCiento (asignadas : Nat) (userCount : Int) : Bool :=
  decide (4 * userCount < 5 * (asignadas : Int))

/-- What the environment supplies to one step of the schedule: the worker that moves (its
position in `users`), the time elapsed before the step, the environment of the
`TryReserveBata` call, whether the `GetAvailableBatas` read fails, and the `rand.Shuffle` of
`availableBatas`. -/
structure Paso where
  actor : Nat
  espera : Nat
  entorno : Entorno
  fallaLectura : Bool
  barajar : List Bata → List Bata

/-- The call `success, err := s.TryReserveBata(id, bID, isolationLevel)` of a worker with the
tests `if err != nil { continue }` and `if success`: the world after the call, and whether the
worker enters the `if success` block. -/
def intentar (w : Mundo) (id bID : Int) (isolationLevel : String) (e : Entorno) :
    Mundo × Bool :=
  let r := reservar w id bID isolationLevel e
  if r.1.err.isSome then (r.2, false)
  else if r.1.ok then (r.2, true)
  else (r.2, false)

/-- One step of the worker of actor `id`; `ocupados` is the number of workers that hold a
slot of the gate. -/
def pasoTrabajador (cfg : Setup) (isolationLevel : String) (id : Int) (ocupados : Nat)
    (w : Mundo) (assignments : List (Int × Int)) (f : Fase) (p : Paso) :
    Mundo × List (Int × Int) × Fase :=
  match f with
  | .esperando =>
    if ocupados < cfg.maxConcurrent then
      (w, assignments, .preferidas ((mapGet cfg.bataDist id).getD []))
    else (w, assignments, .esperando)
  | .preferidas [] => (w, assignments, .scan 0)
  | .preferidas (bID :: rest) =>
    let r := intentar w id bID isolationLevel p.entorno
    (r.1, assignments, if r.2 then .registrando bID (.preferida bID) else .preferidas rest)
  | .scan attempt =>
    if attempt < maxRetriesScan isolationLevel then
      match GetAvailableBatas p.fallaLectura w.store with
      | none => (w, assignments, .scan (attempt + 1))
      | some availableBatas =>
        if availableBatas.length = 0 then (w, assignments, .scan (attempt + 1))
        else (w, assignments, .scanBatas attempt ((p.barajar availableBatas).map Bata.id_bata))
    else (w, assignments, .fin .noPudo)
  | .scanBatas attempt [] =>
    if superaOchentaPorCiento assignments.length cfg.userCount && decide (attempt > 10) then
      (w, assignments, .agresivo attempt 0)
    else (w, assignments, .scan (attempt + 1))
  | .scanBatas attempt (bID :: rest) =>
    let r := intentar w id bID isolationLevel p.entorno
    (r.1, assignments,
      if r.2 then .registrando bID (.intento bID (attempt + 1)) else .scanBatas attempt rest)
  | .agresivo attempt bataTry =>
    if bataTry < 20 then
      let allBatas := (GetAvailableBatas p.fallaLectura w.store).getD []
      if allBatas.length = 0 then (w, assignments, .agresivo attempt (bataTry + 1))
      else (w, assignments, .agresivoBatas attempt bataTry (allBatas.map Bata.id_bata))
    else (w, assignments, .scan (attempt + 1))
  | .agresivoBatas attempt bataTry [] => (w, assignments, .agresivo attempt (bataTry + 1))
  | .agresivoBatas attempt bataTry (bID :: rest) =>
    let r := intentar w id bID isolationLevel p.entorno
    (r.1, assignments,
      if r.2 then .registrando bID (.agresivo bID) else .agresivoBatas attempt bataTry rest)
  | .registrando bID m => (w, mapSet assignments id bID, .fin m)
  | .fin m => (w, assignments, .fin m)

/-- State of a run: the world, the map `assignments`, and the phase of every worker by
position in `users`. -/
structure Corrida where
  mundo : Mundo
  assignments : List (Int × Int)
  fases : List Fase
  deriving DecidableEq, Repr

/-- The run when the workers are launched. -/
def inicio (cfg : Setup) (w : Mundo) : Corrida :=
  { mundo := w, assignments := [], fases := cfg.users.map fun _ => Fase.esperando }

/-- One step of the schedule: time passes, then the chosen worker moves. -/
def pasoCorrida (cfg : Setup) (isolationLevel : String) (c : Corrida) (p : Paso) : Corrida :=
  match cfg.users[p.actor]?, c.fases[p.actor]? with
  | some id, some f =>
    let r := pasoTrabajador cfg isolationLevel id (c.fases.countP Fase.ocupa)
      { c.mundo with now := c.mundo.now + p.espera } c.assignments f p
    { mundo := r.1, assignments := r.2.1, fases := c.fases.set p.actor r.2.2 }
  | _, _ => c

/-- A schedule, step by step. -/
def correr (cfg : Setup) (isolationLevel : String) (c : Corrida) : List Paso → Corrida
  | [] => c
  | p :: ps => correr cfg isolationLevel (pasoCorrida cfg isolationLevel c p) ps

/-- The figures of the summary logged at the end of a run. -/
structure Resumen where
  exitosas : Nat
  disponiblesFinal : Nat
  reservadas : Int
  deriving DecidableEq, Repr

/-- The end of `SimulateConcurrentReservations`: reached when every worker has returned
(`wg.Wait()`); then `finalBatas, _ := s.GetAvailableBatas()` and
`reserved := len(initialBatas) - len(finalBatas)`. -/
def resumen (cfg : Setup) (c : Corrida) (fallaFinal : Bool) : Option Resumen :=
  if c.fases.all Fase.esFin then
    let finalBatas := (GetAvailableBatas fallaFinal c.mundo.store).getD []
    some { exitosas := c.assignments.length,
           disponiblesFinal := finalBatas.length,
           reservadas := (cfg.initialBatas.length : Int) - (finalBatas.length : Int) }
  else none

/-- The function `SimulateConcurrentReservations` under a schedule of its workers: `none` when
the schedule ends before every worker has returned. -/
def SimulateConcurrentReservations (barajarUsuarios barajarBatas : List Int → List Int)
    (estudiantes : Option (List Int)) (w : Mundo) (fallaInicial : Bool) (userCount : Int)
    (isolationLevel : String) (pasos : List Paso) (fallaFinal : Bool) : Res (Option Resumen) :=
  match simulateSetup barajarUsuarios barajarBatas estudiantes
      (GetAvailableBatas fallaInicial w.store) userCount isolationLevel with
  | .stop e => .stop e
  | .ok cfg => .ok (resumen cfg (correr cfg isolationLevel (inicio cfg w) pasos) fallaFinal)

/-- A step of worker `i` without failures in which no time passes. -/
def pasoDe (i : Nat) : Paso :=
  { actor := i, espera := 0, entorno := entornoOk, fallaLectura := false, barajar := id }

/-- The key of table `batas`: no two rows share `id_bata`. -/
def ClaveBatas (s : Store) : Prop :=
  (s.batas.map Bata.id_bata).Nodup

/-- The number of rows of `batas` with `disponible = true`. -/
def numDisponibles (s : Store) : Nat :=
  (s.batas.filter fun b => b.disponible).length

/-- No commit of the call errs after the server has committed. -/
def SinCommitOculto (e : Entorno) : Prop :=
  ∀ n, (e.fallas n).commit ≠ .otherError true

/-- Invariant of a run: `id_bata` is a key; the map entries, the workers that have bound a
resource and not yet written the map, and the available rows add up to `n0`; and a worker
that has not returned has no entry in the map. -/
def InvCorrida (cfg : Setup) (n0 : Nat) (c : Corrida) : Prop :=
  ClaveBatas c.mundo.store ∧
  c.assignments.length + c.fases.countP Fase.porRegistrar + numDisponibles c.mundo.store
    = n0 ∧
  c.fases.length = cfg.users.length ∧
  ∀ (i : Nat) (id : Int) (f : Fase),
    cfg.users[i]? = some id → c.fases[i]? = some f → f.esFin = false →
    ∀ e ∈ c.assignments, e.1 ≠ id

/-- What a step of the worker of actor `id` keeps: the key of `batas`, the sum of map entries,
pending map write and available rows, map entries of other actors, and an unchanged map
unless the worker returns. -/
def PasoOk (w : Mundo) (asg : List (Int × Int)) (id : Int) (f : Fase)
    (r : Mundo × List (Int × Int) × Fase) : Prop :=
  ClaveBatas r.1.store ∧
  r.2.1.length + (if r.2.2.porRegistrar then 1 else 0) + numDisponibles r.1.store
    = asg.length + (if f.porRegistrar then 1 else 0) + numDisponibles w.store ∧
  (∀ x ∈ r.2.1, x ∈ asg ∨ x.1 = id) ∧
  (r.2.2.esFin = false → f.esFin = false ∧ r.2.1 = asg)

/-! ### Sample run -/

/-- Four available resources, no claim, at time 1000. -/
def mundoCuatro : Mundo :=
  { store := { batas := [⟨1, true⟩, ⟨2, true⟩, ⟨3, true⟩, ⟨4, true⟩], reservas := [] },
    now := 1000 }

/-- The set-up for students 7, 8, 9, two requested actors, `READ COMMITTED`, identity
shuffles, on `mundoCuatro`. -/
def cfgEjemplo : Setup :=
  { userCount := 2, users := [7, 8],
    initialBatas := [⟨1, true⟩, ⟨2, true⟩, ⟨3, true⟩, ⟨4, true⟩],
    maxConcurrent := 10, bataPorUsuario := 2, batasArray := [1, 2, 3, 4],
    preferidas := [[1, 2], [3, 4]], bataDist := [(8, [3, 4]), (7, [1, 2])] }

/-- A schedule in which both workers pass the gate, bind their first preferred resource and
write the map. -/
def planEjemplo : List Paso :=
  [pasoDe 0, pasoDe 1, pasoDe 0, pasoDe 1, pasoDe 0, pasoDe 1]

/-- A step of worker `i` whose first commit returns an error that is not a `PgError` after the
server has committed. -/
def pasoCommitOculto (i : Nat) : Paso :=
  { pasoDe i with
    entorno := { entornoOk with fallas := fun _ => { sinFallas with commit := .otherError true } } }

/-! ## Theorems: the claim protocol -/

theorem tryLoop_ret (store : Nat → Cycle) (rnd : Nat → Nat) (u b : Int) (iso : TxIsoLevel)
    (r a : Nat) (ok : Bool) (err : Option ReserveError)
    (h : (attemptCycle (store a) iso).2 = .ret ok err) :
    tryLoop store rnd u b iso (r + 1) a
      = { ok := ok, err := err, cycles := [cycleEvs store rnd iso a] } := by
  simp [tryLoop, h, cycleEvs]

theorem tryLoop_continuar (store : Nat → Cycle) (rnd : Nat → Nat) (u b : Int) (iso : TxIsoLevel)
    (r a : Nat) (h : (attemptCycle (store a) iso).2 = .continuar) :
    tryLoop store rnd u b iso (r + 1) a
      = { tryLoop store rnd u b iso r (a + 1) with
          cycles := cycleEvs store rnd iso a :: (tryLoop store rnd u b iso r (a + 1)).cycles } := by
  simp [tryLoop, h, cycleEvs]

theorem tryLoop_skip (store : Nat → Cycle) (rnd : Nat → Nat) (u b : Int) (iso : TxIsoLevel)
    (r : Nat) : ∀ (k a : Nat),
    (∀ m, m < k → (attemptCycle (store (a + m)) iso).2 = .continuar) →
    ∃ pre : List (List Ev), pre.length = k ∧
      tryLoop store rnd u b iso (r + k) a
        = { tryLoop store rnd u b iso r (a + k) with
            cycles := pre ++ (tryLoop store rnd u b iso r (a + k)).cycles }
  | 0, a, _ => ⟨[], rfl, by simp⟩
  | k + 1, a, h => by
    have h0 : (attemptCycle (store a) iso).2 = .continuar := by simpa using h 0 (Nat.succ_pos k)
    have hk : ∀ m, m < k → (attemptCycle (store (a + 1 + m)) iso).2 = .continuar := by
      intro m hm
      have := h (m + 1) (Nat.succ_lt_succ hm)
      rwa [show a + (m + 1) = a + 1 + m by omega] at this
    obtain ⟨pre, hlen, heq⟩ := tryLoop_skip store rnd u b iso r k (a + 1) hk
    refine ⟨cycleEvs store rnd iso a :: pre, by simp [hlen], ?_⟩
    rw [show r + (k + 1) = (r + k) + 1 from rfl, tryLoop_continuar _ _ _ _ _ _ _ h0, heq]
    simp [show a + 1 + k = a + (k + 1) by omega]

theorem tryLoop_cycles_pos (store : Nat → Cycle) (rnd : Nat → Nat) (u b : Int) (iso : TxIsoLevel)
    (r a : Nat) : 1 ≤ (tryLoop store rnd u b iso (r + 1) a).cycles.length := by
  cases h : (attemptCycle (store a) iso).2 with
  | continuar => rw [tryLoop_continuar _ _ _ _ _ _ _ h]; simp
  | ret ok err => rw [tryLoop_ret _ _ _ _ _ _ _ _ _ h]; simp

theorem tryLoop_cycles_get (store : Nat → Cycle) (rnd : Nat → Nat) (u b : Int) (iso : TxIsoLevel) :
    ∀ (r a j : Nat) (evs : List Ev),
      (tryLoop store rnd u b iso r a).cycles[j]? = some evs → evs = cycleEvs store rnd iso (a + j)
  | 0, a, j, evs, h => by simp [tryLoop] at h
  | r + 1, a, j, evs, h => by
    cases hc : (attemptCycle (store a) iso).2 with
    | ret ok err =>
      rw [tryLoop_ret _ _ _ _ _ _ _ _ _ hc] at h
      cases j with
      | zero => simpa [eq_comm] using h
      | succ j => simp at h
    | continuar =>
      rw [tryLoop_continuar _ _ _ _ _ _ _ hc] at h
      cases j with
      | zero => simpa [eq_comm] using h
      | succ j =>
        have := tryLoop_cycles_get store rnd u b iso r (a + 1) j evs (by simpa using h)
        rw [this, show a + 1 + j = a + (j + 1) by omega]

/-- A call that reaches cycle `n` has run `n` cycles and continues as the loop started at `n`. -/
theorem TryReserveBata_reach (store : Nat → Cycle) (rnd : Nat → Nat) (u b : Int) (lvl : String)
    (n : Nat) (h : llegaACiclo store lvl n) :
    ∃ (pre : List (List Ev)) (r : Nat), pre.length = n ∧ r + 1 + n = maxRetries lvl ∧
      TryReserveBata store rnd u b lvl
        = { tryLoop store rnd u b (txIsoLevel lvl) (r + 1) n with
            cycles := pre ++ (tryLoop store rnd u b (txIsoLevel lvl) (r + 1) n).cycles } := by
  obtain ⟨hn, hreach⟩ := h
  obtain ⟨r, hr⟩ : ∃ r, maxRetries lvl = r + 1 + n := ⟨maxRetries lvl - 1 - n, by omega⟩
  obtain ⟨pre, hlen, heq⟩ := tryLoop_skip store rnd u b (txIsoLevel lvl) (r + 1) n 0
    (by intro m hm; simpa using hreach m hm)
  refine ⟨pre, r, hlen, hr.symm, ?_⟩
  unfold TryReserveBata
  rw [hr, heq]
  simp

theorem attemptCycle_conflict (c : Cycle) (iso : TxIsoLevel) (hc : c.llegaACommit)
    (hk : c.commit.conflicto) :
    attemptCycle c iso
      = ([.beginTx iso, .queryClaim, .lockRead, .update, .insert, .commit], .continuar) := by
  obtain ⟨h1, h2, ⟨d, h3⟩, h4, h5⟩ := hc
  cases hcm : c.commit with
  | ok => simp [hcm, CommitRes.conflicto] at hk
  | otherError a => simp [hcm, CommitRes.conflicto] at hk
  | pgError code =>
    have : esConflicto code = true := by
      simpa [hcm, CommitRes.conflicto, esConflicto] using hk
    simp [attemptCycle, h1, h2, h3, h4, h5, hcm, this]

theorem attemptCycle_fatal (c : Cycle) (iso : TxIsoLevel) (hc : c.llegaACommit)
    (hk : c.commit.fatal) :
    attemptCycle c iso
      = ([.beginTx iso, .queryClaim, .lockRead, .update, .insert, .commit],
          .ret false (some (.confirmar c.commit))) := by
  obtain ⟨h1, h2, ⟨d, h3⟩, h4, h5⟩ := hc
  cases hcm : c.commit with
  | ok => simp [hcm, CommitRes.fatal] at hk
  | otherError a => simp [attemptCycle, h1, h2, h3, h4, h5, hcm]
  | pgError code =>
    have : esConflicto code = false := by
      simpa [hcm, CommitRes.fatal, esConflicto] using hk
    simp [attemptCycle, h1, h2, h3, h4, h5, hcm, this]

theorem attemptCycle_fallaPrevia (c : Cycle) (iso : TxIsoLevel) (hc : c.fallaPrevia) :
    (attemptCycle c iso).2 = .continuar := by
  rcases hc with h | ⟨h1, h2⟩ | ⟨h1, h2, h3⟩ | ⟨h1, h2, ⟨d, h3⟩, h4⟩ | ⟨h1, h2, ⟨d, h3⟩, h4, h5⟩
  · simp [attemptCycle, h]
  · simp [attemptCycle, h1, h2]
  · simp [attemptCycle, h1, h2, h3]
  · simp [attemptCycle, h1, h2, h3, h4]
  · simp [attemptCycle, h1, h2, h3, h4, h5]

/-- The loop alone: when the calls of every cycle below the ceiling return what takes the cycle
to the commit and the commit returns code 40001 or 40P01, the loop runs as many cycles as the
ceiling, every one of them up to its commit, and returns `false` with the retries-exhausted
error that carries the actor and the resource. -/
theorem TryReserveBata_conflictos_agotan (store : Nat → Cycle) (rnd : Nat → Nat)
    (userID bataID : Int) (isolationLevel : String)
    (h : ∀ n, n < maxRetries isolationLevel →
      (store n).llegaACommit ∧ (store n).commit.conflicto) :
    (TryReserveBata store rnd userID bataID isolationLevel).cycles.length
        = (if isolationLevel = "SERIALIZABLE" then 20 else 10) ∧
    (∀ evs ∈ (TryReserveBata store rnd userID bataID isolationLevel).cycles,
        evs.getLast? = some Ev.commit) ∧
    (TryReserveBata store rnd userID bataID isolationLevel).ok = false ∧
    (TryReserveBata store rnd userID bataID isolationLevel).err
        = some (.maxReintentos userID bataID) := by
  have hcont : ∀ m, m < maxRetries isolationLevel →
      (attemptCycle (store (0 + m)) (txIsoLevel isolationLevel)).2 = .continuar := by
    intro m hm
    rw [Nat.zero_add, attemptCycle_conflict _ _ (h m hm).1 (h m hm).2]
  obtain ⟨pre, hlen, heq⟩ := tryLoop_skip store rnd userID bataID (txIsoLevel isolationLevel) 0
    (maxRetries isolationLevel) 0 hcont
  have hT : TryReserveBata store rnd userID bataID isolationLevel
      = { ok := false, err := some (.maxReintentos userID bataID), cycles := pre } := by
    unfold TryReserveBata
    rw [← Nat.zero_add (maxRetries isolationLevel), heq]
    simp [tryLoop]
  have hlen2 : (TryReserveBata store rnd userID bataID isolationLevel).cycles.length
      = maxRetries isolationLevel := by rw [hT]; exact hlen
  refine ⟨by rw [hlen2]; rfl, ?_, by rw [hT], by rw [hT]⟩
  intro evs hmem
  obtain ⟨j, hj⟩ := List.mem_iff_getElem?.1 hmem
  have hjlt : j < maxRetries isolationLevel := by
    have := (List.getElem?_eq_some_iff.1 hj).1
    omega
  have := tryLoop_cycles_get store rnd userID bataID _ _ _ j evs hj
  rw [this, cycleEvs, Nat.zero_add, attemptCycle_conflict _ _ (h j hjlt).1 (h j hjlt).2]
  simp [List.getLast?_append]

/-! ### The deadline of `ctx` -/

theorem dormido_once (rnd : Nat → Nat) : 10120 ≤ dormido rnd 11 := by
  simp only [dormido, backoffDelay]
  omega

theorem dormido_desde_once (rnd : Nat → Nat) : ∀ n, 11 ≤ n → ctxTimeout ≤ dormido rnd n := by
  intro n hn
  induction n, hn using Nat.le_induction with
  | base => exact le_trans (by decide) (dormido_once rnd)
  | succ n _ ih => exact le_trans ih (Nat.le_add_right _ _)

theorem bajoCtx_expirado (store : Nat → Cycle) (rnd gastado : Nat → Nat) (n : Nat)
    (h : 11 ≤ n) : bajoCtx store rnd gastado n = cicloCtxExpirado := by
  have := dormido_desde_once rnd n h
  simp only [bajoCtx]
  rw [if_pos (by omega)]

theorem bajoCtx_vivo (store : Nat → Cycle) (rnd gastado : Nat → Nat) (n : Nat)
    (h : dormido rnd n + gastado n < ctxTimeout) : bajoCtx store rnd gastado n = store n := by
  simp only [bajoCtx]
  rw [if_neg (by omega)]

/-- From cycle 11 on the back-off slept exceeds the 10 s of `ctx` whatever the jitter, so a
cycle of `TryReserveBata` with index 11 or more consists of its sleep and a failed `BeginTx`:
it never reaches the store. -/
theorem TryReserveBataCtx_desde_once (store : Nat → Cycle) (rnd gastado : Nat → Nat)
    (userID bataID : Int) (isolationLevel : String) (n : Nat) (evs : List Ev) (h : 11 ≤ n)
    (hc : (TryReserveBataCtx store rnd gastado userID bataID isolationLevel).cycles[n]?
      = some evs) :
    evs = sleepBefore n (rnd n) ++ [Ev.beginTx (txIsoLevel isolationLevel)] := by
  have := tryLoop_cycles_get (bajoCtx store rnd gastado) rnd userID bataID _ _ _ n evs hc
  rw [this, cycleEvs, Nat.zero_add, bajoCtx_expirado store rnd gastado n h]
  rfl

/-- Under the deadline no store makes every one of the 20 cycles of a `SERIALIZABLE` call
reach its commit. -/
theorem serializable_no_veinte_commits (store : Nat → Cycle) (rnd gastado : Nat → Nat) :
    ¬ ∀ n, n < maxRetries "SERIALIZABLE" → (bajoCtx store rnd gastado n).llegaACommit := by
  intro h
  have h11 := (h 11 (by decide)).1
  rw [bajoCtx_expirado store rnd gastado 11 (le_refl _)] at h11
  cases h11

/-- For a level other than `SERIALIZABLE`, when the deadline has not passed at the start of any
of the 10 cycles and every commit is conflict-aborted, the call runs exactly 10 cycles, every
one of them up to its commit, and returns the retries-exhausted error. -/
theorem TryReserveBataCtx_conflictos_diez (store : Nat → Cycle) (rnd gastado : Nat → Nat)
    (userID bataID : Int) (isolationLevel : String) (hl : isolationLevel ≠ "SERIALIZABLE")
    (hvivo : ∀ n, n < 10 → dormido rnd n + gastado n < ctxTimeout)
    (h : ∀ n, n < 10 → (store n).llegaACommit ∧ (store n).commit.conflicto) :
    (TryReserveBataCtx store rnd gastado userID bataID isolationLevel).cycles.length = 10 ∧
    (∀ evs ∈ (TryReserveBataCtx store rnd gastado userID bataID isolationLevel).cycles,
        evs.getLast? = some Ev.commit) ∧
    (TryReserveBataCtx store rnd gastado userID bataID isolationLevel).ok = false ∧
    (TryReserveBataCtx store rnd gastado userID bataID isolationLevel).err
        = some (.maxReintentos userID bataID) := by
  have hmax : maxRetries isolationLevel = 10 := by simp [maxRetries, hl]
  have := TryReserveBata_conflictos_agotan (bajoCtx store rnd gastado) rnd userID bataID
    isolationLevel (by
      intro n hn
      rw [hmax] at hn
      rw [bajoCtx_vivo store rnd gastado n (hvivo n hn)]
      exact h n hn)
  simpa [TryReserveBataCtx, hl] using this

/-- C1: at the failing input, a `SERIALIZABLE` call in which the store answers every commit with
code 40001 (no jitter, no time spent in the calls), the loop runs its 20 cycles and returns the
retries-exhausted error, but only cycles 0 to 10 reach their commit: before cycle 11 the
back-off slept is 10120 ms, the `ctx` of the call has expired, and cycles 11 to 19 consist of
a sleep and a failed `BeginTx`. The same store under `READ COMMITTED` gives 10 cycles that all
reach their commit. -/
theorem C1_serializable_deadline_stops_retries :
    (TryReserveBataCtx (fun _ => cicloConflicto) (fun _ => 0) (fun _ => 0) 7 3
      "SERIALIZABLE").ok = false ∧
    (TryReserveBataCtx (fun _ => cicloConflicto) (fun _ => 0) (fun _ => 0) 7 3
      "SERIALIZABLE").err = some (.maxReintentos 7 3) ∧
    (TryReserveBataCtx (fun _ => cicloConflicto) (fun _ => 0) (fun _ => 0) 7 3
      "SERIALIZABLE").cycles.length = 20 ∧
    ((TryReserveBataCtx (fun _ => cicloConflicto) (fun _ => 0) (fun _ => 0) 7 3
      "SERIALIZABLE").cycles.filter fun evs => decide (Ev.commit ∈ evs)).length = 11 ∧
    dormido (fun _ => 0) 10 = 7700 ∧ dormido (fun _ => 0) 11 = 10120 ∧
    (TryReserveBataCtx (fun _ => cicloConflicto) (fun _ => 0) (fun _ => 0) 7 3
      "SERIALIZABLE").cycles[10]?
      = some [.sleep 2000, .beginTx .serializable, .queryClaim, .lockRead, .update, .insert,
          .commit] ∧
    (TryReserveBataCtx (fun _ => cicloConflicto) (fun _ => 0) (fun _ => 0) 7 3
      "SERIALIZABLE").cycles.drop 11
      = [[.sleep 2420, .beginTx .serializable], [.sleep 2880, .beginTx .serializable],
         [.sleep 3380, .beginTx .serializable], [.sleep 3920, .beginTx .serializable],
         [.sleep 4500, .beginTx .serializable], [.sleep 5120, .beginTx .serializable],
         [.sleep 5780, .beginTx .serializable], [.sleep 6480, .beginTx .serializable],
         [.sleep 7220, .beginTx .serializable]] ∧
    (TryReserveBataCtx (fun _ => cicloConflicto) (fun _ => 0) (fun _ => 0) 7 3
      "READ COMMITTED").cycles.length = 10 ∧
    ((TryReserveBataCtx (fun _ => cicloConflicto) (fun _ => 0) (fun _ => 0) 7 3
      "READ COMMITTED").cycles.filter fun evs => decide (Ev.commit ∈ evs)).length = 10 := by
  decide

/-- C2 (as stated) fails: a failure of `BeginTx`, of the active-claim query, of the lock read,
of the `UPDATE` or of the `INSERT` in the first cycle is not returned; a second cycle is
started and the call returns `(true, nil)`. -/
theorem C2_counterexample :
    (TryReserveBata (primeroLuegoOk { cicloOk with beginOk := false }) (fun _ => 0) 7 3
        "READ COMMITTED") = Outcome.mk true none
          [[.beginTx .readCommitted],
            [.sleep 20, .beginTx .readCommitted, .queryClaim, .lockRead, .update, .insert,
              .commit]] ∧
    (TryReserveBata (primeroLuegoOk { cicloOk with claim := .err }) (fun _ => 0) 7 3
        "READ COMMITTED").err = none ∧
    (TryReserveBata (primeroLuegoOk { cicloOk with lock := .err }) (fun _ => 0) 7 3
        "READ COMMITTED").err = none ∧
    (TryReserveBata (primeroLuegoOk { cicloOk with updateOk := false }) (fun _ => 0) 7 3
        "READ COMMITTED").err = none ∧
    (TryReserveBata (primeroLuegoOk { cicloOk with insertOk := false }) (fun _ => 0) 7 3
        "READ COMMITTED").err = none ∧
    (TryReserveBata (primeroLuegoOk { cicloOk with insertOk := false }) (fun _ => 0) 7 3
        "READ COMMITTED").cycles.length = 2 := by
  decide

/-- C2 (amended): in a call that reaches cycle `n`, a commit failure that is not a
conflict-abort signal is returned at once as the wrapped commit error and cycle `n` is the
last one; a failure before the commit ends cycle `n` with `continue`: below the ceiling a
further cycle is started, and at the ceiling the call returns the retries-exhausted error. -/
theorem C2_only_commit_failure_is_fatal (store : Nat → Cycle) (rnd : Nat → Nat)
    (userID bataID : Int) (isolationLevel : String) (n : Nat)
    (hreach : llegaACiclo store isolationLevel n) :
    ((store n).llegaACommit → (store n).commit.fatal →
      (TryReserveBata store rnd userID bataID isolationLevel).ok = false ∧
      (TryReserveBata store rnd userID bataID isolationLevel).err
        = some (.confirmar (store n).commit) ∧
      (TryReserveBata store rnd userID bataID isolationLevel).cycles.length = n + 1) ∧
    ((store n).fallaPrevia →
      (attemptCycle (store n) (txIsoLevel isolationLevel)).2 = .continuar ∧
      (n + 1 < maxRetries isolationLevel →
        n + 2 ≤ (TryReserveBata store rnd userID bataID isolationLevel).cycles.length) ∧
      (n + 1 = maxRetries isolationLevel →
        (TryReserveBata store rnd userID bataID isolationLevel).ok = false ∧
        (TryReserveBata store rnd userID bataID isolationLevel).err
          = some (.maxReintentos userID bataID) ∧
        (TryReserveBata store rnd userID bataID isolationLevel).cycles.length = n + 1)) := by
  obtain ⟨pre, r, hlen, hr, heq⟩ := TryReserveBata_reach store rnd userID bataID isolationLevel n hreach
  constructor
  · intro hc hf
    have h2 : (attemptCycle (store n) (txIsoLevel isolationLevel)).2
        = .ret false (some (.confirmar (store n).commit)) := by
      rw [attemptCycle_fatal _ _ hc hf]
    rw [heq, tryLoop_ret _ _ _ _ _ _ _ _ _ h2]
    simp [hlen]
  · intro hf
    have h2 := attemptCycle_fallaPrevia (store n) (txIsoLevel isolationLevel) hf
    refine ⟨h2, ?_, ?_⟩
    · intro hlt
      obtain ⟨r', rfl⟩ : ∃ r', r = r' + 1 := ⟨r - 1, by omega⟩
      have := tryLoop_cycles_pos store rnd userID bataID (txIsoLevel isolationLevel) r' (n + 1)
      rw [heq, tryLoop_continuar _ _ _ _ _ _ _ h2]
      simp [hlen]
      omega
    · intro hmax
      have hr0 : r = 0 := by omega
      subst hr0
      rw [heq, tryLoop_continuar _ _ _ _ _ _ _ h2]
      simp [tryLoop, hlen]

/-- Witness of C2: the `UPDATE` fails in cycle 0 and the commit of cycle 1 fails with code
`23505`. -/
theorem C2_only_commit_failure_is_fatal_witness :
    ((TryReserveBata (fun n => if n = 0 then { cicloOk with updateOk := false }
          else { cicloOk with commit := .pgError "23505" }) (fun _ => 0) 7 3 "SERIALIZABLE").ok
        = false ∧
      (TryReserveBata (fun n => if n = 0 then { cicloOk with updateOk := false }
          else { cicloOk with commit := .pgError "23505" }) (fun _ => 0) 7 3 "SERIALIZABLE").err
        = some (.confirmar (.pgError "23505")) ∧
      (TryReserveBata (fun n => if n = 0 then { cicloOk with updateOk := false }
          else { cicloOk with commit := .pgError "23505" }) (fun _ => 0) 7 3
          "SERIALIZABLE").cycles.length = 1 + 1) ∧
    0 + 2 ≤ (TryReserveBata (fun n => if n = 0 then { cicloOk with updateOk := false }
          else { cicloOk with commit := .pgError "23505" }) (fun _ => 0) 7 3
          "SERIALIZABLE").cycles.length :=
  ⟨(C2_only_commit_failure_is_fatal (fun n => if n = 0 then { cicloOk with updateOk := false }
      else { cicloOk with commit := .pgError "23505" }) (fun _ => 0) 7 3 "SERIALIZABLE" 1
      ⟨by decide, fun m hm => by
        have : m = 0 := by omega
        subst this; decide⟩).1
      ⟨rfl, rfl, ⟨true, rfl⟩, rfl, rfl⟩ (by simp [CommitRes.fatal]),
    ((C2_only_commit_failure_is_fatal (fun n => if n = 0 then { cicloOk with updateOk := false }
      else { cicloOk with commit := .pgError "23505" }) (fun _ => 0) 7 3 "SERIALIZABLE" 0
      ⟨by decide, fun m hm => absurd hm (Nat.not_lt_zero m)⟩).2
      (Or.inr (Or.inr (Or.inr (Or.inl ⟨rfl, rfl, ⟨true, rfl⟩, rfl⟩))))).2.1 (by decide)⟩

/-- C3: in a call that reaches cycle `n`, if the transaction opens and either the active-claim
check reports a claim or the skip-locked read returns no row, the call returns `(false, nil)`
in that cycle, the cycle ends with a rollback and issues no `UPDATE`, no `INSERT` and no
commit, and the store after the call is the store before it. -/
theorem C3_not_bound_leaves_store_unchanged (store : Nat → Cycle) (rnd : Nat → Nat)
    (userID bataID : Int) (isolationLevel : String) (n : Nat)
    (hreach : llegaACiclo store isolationLevel n)
    (hbegin : (store n).beginOk = true)
    (hcase : (store n).claim = .value true ∨
      ((store n).claim = .value false ∧ (store n).lock = .errNoRows)) :
    (TryReserveBata store rnd userID bataID isolationLevel).ok = false ∧
    (TryReserveBata store rnd userID bataID isolationLevel).err = none ∧
    (TryReserveBata store rnd userID bataID isolationLevel).cycles.length = n + 1 ∧
    (∃ evs, (TryReserveBata store rnd userID bataID isolationLevel).cycles[n]? = some evs ∧
      evs.getLast? = some Ev.rollback ∧ Ev.update ∉ evs ∧ Ev.insert ∉ evs ∧ Ev.commit ∉ evs) ∧
    (∀ (s : Store) (now : Nat),
      storeAfter s now userID bataID (TryReserveBata store rnd userID bataID isolationLevel)
        = s) := by
  obtain ⟨pre, r, hlen, hr, heq⟩ := TryReserveBata_reach store rnd userID bataID isolationLevel n hreach
  have hcyc : ∃ evs, attemptCycle (store n) (txIsoLevel isolationLevel) = (evs, .ret false none) ∧
      evs.getLast? = some Ev.rollback ∧ Ev.update ∉ evs ∧ Ev.insert ∉ evs ∧ Ev.commit ∉ evs := by
    rcases hcase with h | ⟨h1, h2⟩
    · exact ⟨[.beginTx (txIsoLevel isolationLevel), .queryClaim, .rollback],
        by simp [attemptCycle, hbegin, h], by simp, by simp, by simp, by simp⟩
    · exact ⟨[.beginTx (txIsoLevel isolationLevel), .queryClaim, .lockRead, .rollback],
        by simp [attemptCycle, hbegin, h1, h2], by simp, by simp, by simp, by simp⟩
  obtain ⟨evs, hev, hlast, hu, hi, hc⟩ := hcyc
  have h2 : (attemptCycle (store n) (txIsoLevel isolationLevel)).2 = .ret false none := by rw [hev]
  have hT : TryReserveBata store rnd userID bataID isolationLevel
      = { ok := false, err := none,
          cycles := pre ++ [cycleEvs store rnd (txIsoLevel isolationLevel) n] } := by
    rw [heq, tryLoop_ret _ _ _ _ _ _ _ _ _ h2]
  refine ⟨by rw [hT], by rw [hT], by rw [hT]; simp [hlen], ?_, ?_⟩
  · refine ⟨cycleEvs store rnd (txIsoLevel isolationLevel) n, ?_, ?_, ?_, ?_, ?_⟩
    · rw [hT]; simp [← hlen]
    · have hne : evs ≠ [] := by intro h; simp [h] at hlast
      simp [cycleEvs, hev, List.getLast?_append, hlast]
    all_goals
      simp only [cycleEvs, hev, List.mem_append, not_or]
      refine ⟨?_, by assumption⟩
      unfold sleepBefore
      split <;> simp
  · intro s now
    simp [storeAfter, hT, Outcome.aplicado]

/-- Witness of C3: cycle 0 is conflict-aborted and the lock read of cycle 1 returns no row. -/
theorem C3_not_bound_leaves_store_unchanged_witness :
    (TryReserveBata (fun n => if n = 0 then cicloConflicto
        else { cicloOk with lock := .errNoRows }) (fun _ => 0) 7 3 "READ COMMITTED").ok = false ∧
    (TryReserveBata (fun n => if n = 0 then cicloConflicto
        else { cicloOk with lock := .errNoRows }) (fun _ => 0) 7 3 "READ COMMITTED").err = none ∧
    (TryReserveBata (fun n => if n = 0 then cicloConflicto
        else { cicloOk with lock := .errNoRows }) (fun _ => 0) 7 3 "READ COMMITTED").cycles.length
      = 1 + 1 :=
  have h := C3_not_bound_leaves_store_unchanged (fun n => if n = 0 then cicloConflicto
      else { cicloOk with lock := .errNoRows }) (fun _ => 0) 7 3 "READ COMMITTED" 1
      ⟨by decide, fun m hm => by
        have : m = 0 := by omega
        subst this; decide⟩ rfl (Or.inr ⟨rfl, rfl⟩)
  ⟨h.1, h.2.1, h.2.2.1⟩

/-- C9: no delay is slept before cycle 0; before cycle `n >= 1` exactly one delay
`n*n*20 + j` ms with `0 <= j < 100` is slept, and it is the first call of that cycle of
`TryReserveBata`; for `n >= 2` and every jitter the delay before cycle `n` is at least the
quadratic component of the previous delay; the quadratic component is strictly increasing. -/
theorem C9_backoff_monotone (store : Nat → Cycle) (rnd : Nat → Nat) (userID bataID : Int)
    (isolationLevel : String) (n : Nat) :
    sleepBefore 0 (rnd 0) = [] ∧
    (1 ≤ n → ∃ j, j < 100 ∧ sleepBefore n (rnd n) = [Ev.sleep (n * n * 20 + j)]) ∧
    (∀ evs, (TryReserveBata store rnd userID bataID isolationLevel).cycles[n]? = some evs →
      evs = sleepBefore n (rnd n) ++ (attemptCycle (store n) (txIsoLevel isolationLevel)).1) ∧
    (2 ≤ n → ∀ raw, (n - 1) * (n - 1) * 20 ≤ backoffDelay n raw) ∧
    (∀ m, m < n → m * m * 20 < n * n * 20) := by
  refine ⟨rfl, ?_, ?_, ?_, ?_⟩
  · intro hn
    refine ⟨Intn (rnd n) 100, Nat.mod_lt _ (by decide), ?_⟩
    have : n > 0 := hn
    simp [sleepBefore, this, backoffDelay]
  · intro evs h
    have := tryLoop_cycles_get store rnd userID bataID _ _ _ n evs h
    simpa [cycleEvs] using this
  · intro hn raw
    have h1 : (n - 1) * (n - 1) ≤ n * n := Nat.mul_le_mul (Nat.sub_le _ _) (Nat.sub_le _ _)
    unfold backoffDelay
    omega
  · intro m hm
    have : m * m < n * n := Nat.mul_self_lt_mul_self hm
    omega

/-- Witness of C9: the delay before cycle 3. -/
theorem C9_backoff_monotone_witness :
    (∃ j, j < 100 ∧ sleepBefore 3 ((fun _ => 257) 3) = [Ev.sleep (3 * 3 * 20 + j)]) ∧
    (3 - 1) * (3 - 1) * 20 ≤ backoffDelay 3 99 ∧ 2 * 2 * 20 < 3 * 3 * 20 :=
  have h := C9_backoff_monotone (fun _ => cicloConflicto) (fun _ => 257) 7 3 "SERIALIZABLE" 3
  ⟨h.2.1 (by decide), h.2.2.2.1 (by decide) 99, h.2.2.2.2 2 (by decide)⟩

/-! ## Theorems: the set-up of `SimulateConcurrentReservations` -/

theorem goIndex_natCast (xs : List Int) (i : Nat) (h : i < xs.length) :
    goIndex xs (i : Int) = .ok xs[i] := by
  simp [goIndex, List.getElem?_eq_getElem h]

theorem batasUsuarioLoop_eq (arr : List Int) (sn kn : Nat) :
    ∀ (r jn : Nat) (acc : List Int), jn + r = kn → sn + kn ≤ arr.length →
      batasUsuarioLoop arr (sn : Int) (kn : Int) r (jn : Int) acc
        = .ok (acc ++ (arr.drop (jn + sn)).take r)
  | 0, jn, acc, _, _ => by simp [batasUsuarioLoop]
  | r + 1, jn, acc, hj, hs => by
    have hlt : jn + sn < arr.length := by omega
    have hc : ((jn : Int) < (kn : Int) ∧ (jn : Int) + (sn : Int) < (arr.length : Int)) := by
      constructor <;> omega
    have hidx : goIndex arr ((jn : Int) + (sn : Int)) = .ok arr[jn + sn] := by
      rw [← Nat.cast_add]; exact goIndex_natCast arr (jn + sn) hlt
    have ih := batasUsuarioLoop_eq arr sn kn r (jn + 1) (acc ++ [arr[jn + sn]]) (by omega) hs
    rw [batasUsuarioLoop, if_pos hc, hidx]
    simp only
    rw [show ((jn : Int) + 1) = ((jn + 1 : Nat) : Int) by push_cast; rfl, ih]
    rw [List.drop_eq_getElem_cons hlt, List.take_succ_cons]
    simp [show jn + 1 + sn = jn + sn + 1 by omega]

/-- Size of a preferred sublist: `max(1, n / u)`. -/
theorem slice_fits (n u i : Nat) (hn : 0 < n) (hi : i < u) :
    (i * max 1 (n / u)) % n + max 1 (n / u) ≤ n ∧
    ∀ j, j < max 1 (n / u) → (i * max 1 (n / u)) % n + j = (i * max 1 (n / u) + j) % n := by
  have hu : 0 < u := by omega
  by_cases hq : 1 ≤ n / u
  · have hk : max 1 (n / u) = n / u := max_eq_right hq
    rw [hk]
    have h1 : (i + 1) * (n / u) ≤ u * (n / u) := Nat.mul_le_mul_right _ (by omega)
    have h2 : u * (n / u) ≤ n := Nat.mul_div_le n u
    have h3 : (i + 1) * (n / u) = i * (n / u) + n / u := by ring
    have h4 : i * (n / u) < n := by omega
    rw [Nat.mod_eq_of_lt h4]
    refine ⟨by omega, fun j hj => ?_⟩
    rw [Nat.mod_eq_of_lt (by omega)]
  · have hk : max 1 (n / u) = 1 := max_eq_left (by omega)
    rw [hk]
    have := Nat.mod_lt (i * 1) hn
    refine ⟨by omega, fun j hj => ?_⟩
    have : j = 0 := by omega
    subst this
    simp

theorem batasUsuario_eq (arr : List Int) (u i : Nat) (hn : 0 < arr.length) (hi : i < u) :
    batasUsuario arr ((max 1 (arr.length / u) : Nat) : Int) i
      = .ok ((arr.drop ((i * max 1 (arr.length / u)) % arr.length)).take
          (max 1 (arr.length / u))) := by
  have hfit := (slice_fits arr.length u i hn hi).1
  have hne : (arr.length : Int) ≠ 0 := by omega
  have hmod : goMod ((i : Int) * ((max 1 (arr.length / u) : Nat) : Int)) (arr.length : Int)
      = .ok (((i * max 1 (arr.length / u)) % arr.length : Nat) : Int) := by
    rw [goMod, if_neg hne, ← Nat.cast_mul, ← Int.ofNat_tmod]
  rw [batasUsuario, hmod]
  simp only
  have := batasUsuarioLoop_eq arr ((i * max 1 (arr.length / u)) % arr.length)
    (max 1 (arr.length / u)) (max 1 (arr.length / u)) 0 [] (by omega) hfit
  simp only [Nat.cast_zero, Nat.zero_add, List.nil_append] at this
  rw [Int.toNat_ofNat]
  exact this

theorem preferidasDesde_eq (arr : List Int) (k : Int) (f : Nat → List Int) :
    ∀ (users : List Int) (i0 : Nat),
      (∀ i, i0 ≤ i → i < i0 + users.length → batasUsuario arr k i = .ok (f i)) →
      preferidasDesde arr k users i0 = .ok ((List.range users.length).map fun i => f (i0 + i))
  | [], i0, _ => by simp [preferidasDesde]
  | x :: rest, i0, h => by
    have h0 := h i0 (le_refl _) (by simp)
    have ih := preferidasDesde_eq arr k f rest (i0 + 1) (fun i h1 h2 => h i (by omega)
      (by simp only [List.length_cons]; omega))
    rw [preferidasDesde, h0]
    simp only
    rw [ih]
    simp only [List.length_cons, List.range_succ_eq_map, List.map_cons, List.map_map,
      Nat.add_zero]
    congr 2
    apply List.map_congr_left
    intro a _
    simp [Nat.add_assoc, Nat.add_comm 1 a]

/-- The set-up in closed form, for a requested actor count of at least 1, a non-empty student
list and a non-empty list of available resources. -/
theorem simulateSetup_ok (barajarUsuarios barajarBatas : List Int → List Int)
    (hU : ∀ xs, (barajarUsuarios xs).length = xs.length)
    (hB : ∀ xs, (barajarBatas xs).length = xs.length)
    (students : List Int) (initial : List Bata) (userCount : Int) (lvl : String)
    (hs : students ≠ []) (hi : initial ≠ []) (hu : 1 ≤ userCount) :
    simulateSetup barajarUsuarios barajarBatas (some students) (some initial) userCount lvl
      = .ok
        { userCount := ((min userCount.toNat students.length : Nat) : Int),
          users := (barajarUsuarios students).take (min userCount.toNat students.length),
          initialBatas := initial,
          maxConcurrent := maxConcurrent lvl ((min userCount.toNat students.length : Nat) : Int),
          bataPorUsuario :=
            ((max 1 (initial.length / min userCount.toNat students.length) : Nat) : Int),
          batasArray := barajarBatas (initial.map Bata.id_bata),
          preferidas := (List.range (min userCount.toNat students.length)).map fun i =>
            ((barajarBatas (initial.map Bata.id_bata)).drop
              ((i * max 1 (initial.length / min userCount.toNat students.length))
                % initial.length)).take
              (max 1 (initial.length / min userCount.toNat students.length)),
          bataDist := llenarBataDist
            ((barajarUsuarios students).take (min userCount.toNat students.length))
            ((List.range (min userCount.toNat students.length)).map fun i =>
              ((barajarBatas (initial.map Bata.id_bata)).drop
                ((i * max 1 (initial.length / min userCount.toNat students.length))
                  % initial.length)).take
                (max 1 (initial.length / min userCount.toNat students.length))) [] } := by
  have hsl : 0 < students.length := List.length_pos.2 hs
  have hil : 0 < initial.length := List.length_pos.2 hi
  set u := min userCount.toNat students.length with hudef
  have hupos : 0 < u := by
    have : 0 < userCount.toNat := by omega
    exact lt_min this hsl
  have hule : u ≤ students.length := min_le_right _ _
  have huc : (if userCount > (students.length : Int) then (students.length : Int) else userCount)
      = (u : Int) := by
    split
    · rw [hudef, min_eq_right (by omega)]
    · rw [hudef, min_eq_left (by omega)]; omega
  have hslice : goSliceTo (barajarUsuarios students) (u : Int)
      = .ok ((barajarUsuarios students).take u) := by
    have : (0 : Int) ≤ (u : Int) ∧ (u : Int) ≤ ((barajarUsuarios students).length : Int) := by
      rw [hU]; constructor <;> omega
    rw [goSliceTo, if_pos this]; simp
  have hdiv : goDiv (initial.length : Int) (u : Int) = .ok ((initial.length / u : Nat) : Int) := by
    have : (u : Int) ≠ 0 := by omega
    rw [goDiv, if_neg this, Int.ofNat_tdiv]
  have hk : (if ((initial.length / u : Nat) : Int) < 1 then (1 : Int)
      else ((initial.length / u : Nat) : Int)) = ((max 1 (initial.length / u) : Nat) : Int) := by
    generalize initial.length / u = q
    split
    · rw [max_eq_left (by omega)]; rfl
    · rw [max_eq_right (by omega)]
  have hlenB : (barajarBatas (initial.map Bata.id_bata)).length = initial.length := by
    rw [hB, List.length_map]
  have hlenU : ((barajarUsuarios students).take u).length = u := by
    rw [List.length_take, hU]; exact min_eq_left hule
  have hpref := preferidasDesde_eq (barajarBatas (initial.map Bata.id_bata))
    ((max 1 (initial.length / u) : Nat) : Int)
    (fun i => ((barajarBatas (initial.map Bata.id_bata)).drop
        ((i * max 1 (initial.length / u)) % initial.length)).take (max 1 (initial.length / u)))
    ((barajarUsuarios students).take u) 0
    (by
      intro i _ hlt
      have hiu : i < u := by rw [hlenU] at hlt; omega
      have := batasUsuario_eq (barajarBatas (initial.map Bata.id_bata)) u i
        (by rw [hlenB]; exact hil) hiu
      rw [hlenB] at this
      exact this)
  rw [hlenU] at hpref
  have hne : ¬ initial.length = 0 := by omega
  have hgv : GetValidStudentIDs (some students) = some students := by
    simp [GetValidStudentIDs, hs]
  unfold simulateSetup
  simp only [hgv, huc, hslice, if_neg hne, hdiv, hk, hpref, Nat.zero_add]

theorem simulateSetup_maxConcurrent (barajarUsuarios barajarBatas : List Int → List Int)
    (estudiantes : Option (List Int)) (initial : Option (List Bata)) (userCount : Int)
    (lvl : String) (r : Setup)
    (h : simulateSetup barajarUsuarios barajarBatas estudiantes initial userCount lvl = .ok r) :
    r.maxConcurrent = maxConcurrent lvl r.userCount := by
  unfold simulateSetup at h
  split at h
  · cases h
  · simp only at h
    split at h
    · cases h
    · split at h
      · cases h
      · split at h
        · cases h
        · split at h
          · cases h
          · split at h
            · cases h
            · cases h; rfl

/-- C7: the capacity of the admission gate is 3 for `SERIALIZABLE` with more than 20 actors,
5 for `SERIALIZABLE` with at most 20, 15 for another level with more than 20 and 10 otherwise;
`SimulateConcurrentReservations` uses this value for its (clamped) actor count; and for the
same actor count the `SERIALIZABLE` capacity is strictly below that of any other level. -/
theorem C7_admission_gate_capacity (isolationLevel : String) (userCount : Int) :
    maxConcurrent isolationLevel userCount
      = (if isolationLevel = "SERIALIZABLE" ∧ userCount > 20 then 3
         else if isolationLevel = "SERIALIZABLE" ∧ userCount ≤ 20 then 5
         else if ¬ isolationLevel = "SERIALIZABLE" ∧ userCount > 20 then 15
         else 10) ∧
    (∀ (barajarUsuarios barajarBatas : List Int → List Int) (estudiantes : Option (List Int))
        (initial : Option (List Bata)) (r : Setup),
      simulateSetup barajarUsuarios barajarBatas estudiantes initial userCount isolationLevel
          = .ok r →
        r.maxConcurrent = maxConcurrent isolationLevel r.userCount) ∧
    (∀ other : String, other ≠ "SERIALIZABLE" →
      maxConcurrent "SERIALIZABLE" userCount < maxConcurrent other userCount) := by
  refine ⟨?_, ?_, ?_⟩
  · unfold maxConcurrent
    by_cases h1 : isolationLevel = "SERIALIZABLE" <;> by_cases h2 : userCount > 20
    · simp [h1, h2]
    · have h3 : userCount ≤ 20 := by omega
      simp [h1, h2, h3]
    · simp [h1, h2]
    · simp [h1, h2]
  · intro bu bb est ini r h
    exact simulateSetup_maxConcurrent bu bb est ini userCount isolationLevel r h
  · intro other ho
    unfold maxConcurrent
    by_cases h2 : userCount > 20 <;> simp [ho, h2]

/-- Witness of C7: the four capacities, and the comparison for 30 actors. -/
theorem C7_admission_gate_capacity_witness :
    maxConcurrent "SERIALIZABLE" 30 = 3 ∧ maxConcurrent "SERIALIZABLE" 20 = 5 ∧
    maxConcurrent "READ COMMITTED" 30 = 15 ∧ maxConcurrent "REPEATABLE READ" 20 = 10 ∧
    maxConcurrent "SERIALIZABLE" 30 < maxConcurrent "READ COMMITTED" 30 :=
  ⟨by decide, by decide, by decide, by decide,
    (C7_admission_gate_capacity "SERIALIZABLE" 30).2.2 "READ COMMITTED" (by decide)⟩

/-- C8: for a requested actor count of at least 1, a non-empty student list and a non-empty
list of available resources, the set-up succeeds; with `n` the length of the shuffled resource
array, `u` the number of selected actors and `k = max(1, n / u)`, there is one preferred
sublist per actor position, the sublist at position `i` has exactly `k` elements, and its
`j`-th element is the element of the shuffled array at index `(i*k + j) mod n`. -/
theorem C8_preferred_sublist (barajarUsuarios barajarBatas : List Int → List Int)
    (hU : ∀ xs, (barajarUsuarios xs).length = xs.length)
    (hB : ∀ xs, (barajarBatas xs).length = xs.length)
    (students : List Int) (initial : List Bata) (userCount : Int) (lvl : String)
    (hs : students ≠ []) (hi : initial ≠ []) (hu : 1 ≤ userCount) :
    ∃ r, simulateSetup barajarUsuarios barajarBatas (some students) (some initial) userCount lvl
        = .ok r ∧
      r.batasArray = barajarBatas (initial.map Bata.id_bata) ∧
      0 < r.batasArray.length ∧ 1 ≤ r.users.length ∧
      r.bataPorUsuario = ((max 1 (r.batasArray.length / r.users.length) : Nat) : Int) ∧
      r.preferidas.length = r.users.length ∧
      ∀ i l, r.preferidas[i]? = some l →
        l.length = max 1 (r.batasArray.length / r.users.length) ∧
        ∀ j, j < max 1 (r.batasArray.length / r.users.length) →
          ∃ x, l[j]? = some x ∧
            r.batasArray[(i * max 1 (r.batasArray.length / r.users.length) + j)
              % r.batasArray.length]? = some x := by
  have hsl : 0 < students.length := List.length_pos.2 hs
  have hil : 0 < initial.length := List.length_pos.2 hi
  have hlenB : (barajarBatas (initial.map Bata.id_bata)).length = initial.length := by
    rw [hB, List.length_map]
  have hule : min userCount.toNat students.length ≤ students.length := min_le_right _ _
  have hupos : 0 < min userCount.toNat students.length :=
    lt_min (by omega) hsl
  have hlenU : ((barajarUsuarios students).take (min userCount.toNat students.length)).length
      = min userCount.toNat students.length := by
    rw [List.length_take, hU]; exact min_eq_left hule
  refine ⟨_, simulateSetup_ok barajarUsuarios barajarBatas hU hB students initial userCount lvl
    hs hi hu, rfl, ?_, ?_, ?_, ?_, ?_⟩
  · simp only [hlenB]; exact hil
  · simp only [hlenU]; exact hupos
  · simp only [hlenB, hlenU]
  · simp only [List.length_map, List.length_range, hlenU]
  · simp only [hlenB, hlenU]
    generalize min userCount.toNat students.length = u at hupos
    intro i l hl
    rw [List.getElem?_map] at hl
    have hiu : i < u := by
      by_contra hcon
      rw [List.getElem?_eq_none (by simpa using hcon)] at hl
      simp at hl
    rw [List.getElem?_range hiu] at hl
    simp only [Option.map_some', Option.some.injEq] at hl
    obtain ⟨hfit, hidx⟩ := slice_fits initial.length u i hil hiu
    subst hl
    constructor
    · rw [List.length_take, List.length_drop, hlenB]; omega
    · intro j hj
      have hlt : (i * max 1 (initial.length / u) + j) % initial.length < initial.length :=
        Nat.mod_lt _ hil
      refine ⟨(barajarBatas (initial.map Bata.id_bata))[(i * max 1 (initial.length / u) + j)
        % initial.length]?.get (by simp [hlenB, hlt]), ?_, by simp⟩
      rw [List.getElem?_take, if_pos hj, List.getElem?_drop, hidx j hj]
      simp

/-- Witness of C8: three students, seven resources, five requested actors, reversing
shuffles. -/
theorem C8_preferred_sublist_witness :
    ∃ r, simulateSetup List.reverse List.reverse (some [1, 2, 3]) (some
        [⟨10, true⟩, ⟨11, true⟩, ⟨12, true⟩, ⟨13, true⟩, ⟨14, true⟩, ⟨15, true⟩, ⟨16, true⟩]) 5
        "SERIALIZABLE" = .ok r ∧
      r.batasArray = List.reverse (List.map Bata.id_bata
        [⟨10, true⟩, ⟨11, true⟩, ⟨12, true⟩, ⟨13, true⟩, ⟨14, true⟩, ⟨15, true⟩, ⟨16, true⟩]) ∧
      0 < r.batasArray.length ∧ 1 ≤ r.users.length ∧
      r.bataPorUsuario = ((max 1 (r.batasArray.length / r.users.length) : Nat) : Int) ∧
      r.preferidas.length = r.users.length ∧
      ∀ i l, r.preferidas[i]? = some l →
        l.length = max 1 (r.batasArray.length / r.users.length) ∧
        ∀ j, j < max 1 (r.batasArray.length / r.users.length) →
          ∃ x, l[j]? = some x ∧
            r.batasArray[(i * max 1 (r.batasArray.length / r.users.length) + j)
              % r.batasArray.length]? = some x :=
  C8_preferred_sublist List.reverse List.reverse (fun xs => List.length_reverse xs)
    (fun xs => List.length_reverse xs) [1, 2, 3]
    [⟨10, true⟩, ⟨11, true⟩, ⟨12, true⟩, ⟨13, true⟩, ⟨14, true⟩, ⟨15, true⟩, ⟨16, true⟩] 5
    "SERIALIZABLE" (by decide) (by decide) (by decide)

/-- C10: for every requested actor count of at least 1, every non-empty student list and
every non-empty list of available resources the set-up runs to the launch of the workers
without a panic (no slice or index out of range, no division by zero); with a requested actor
count of 0 it is not rejected and panics in the division `len(initialBatas) / userCount`. -/
theorem C10_setup_never_panics (barajarUsuarios barajarBatas : List Int → List Int)
    (hU : ∀ xs, (barajarUsuarios xs).length = xs.length)
    (hB : ∀ xs, (barajarBatas xs).length = xs.length)
    (students : List Int) (initial : List Bata) (lvl : String)
    (hs : students ≠ []) (hi : initial ≠ []) :
    (∀ userCount : Int, 1 ≤ userCount →
      ∃ r, simulateSetup barajarUsuarios barajarBatas (some students) (some initial) userCount lvl
        = .ok r) ∧
    simulateSetup barajarUsuarios barajarBatas (some students) (some initial) 0 lvl
      = .stop (.panic .divideByZero) := by
  constructor
  · intro userCount hu
    exact ⟨_, simulateSetup_ok barajarUsuarios barajarBatas hU hB students initial userCount lvl
      hs hi hu⟩
  · have hil : 0 < initial.length := List.length_pos.2 hi
    have hgv : GetValidStudentIDs (some students) = some students := by
      simp [GetValidStudentIDs, hs]
    have hc : ¬ ((0 : Int) > (students.length : Int)) := by omega
    have hslice : goSliceTo (barajarUsuarios students) 0 = .ok [] := by
      simp [goSliceTo]
    have hne : ¬ initial.length = 0 := by omega
    unfold simulateSetup
    simp only [hgv, if_neg hc, hslice, if_neg hne, goDiv, if_true]

/-- Witness of C10: requested actor counts 30 and 0 on three students and two resources. -/
theorem C10_setup_never_panics_witness :
    (∃ r, simulateSetup List.reverse id (some [1, 2, 3]) (some [⟨10, true⟩, ⟨11, true⟩]) 30
        "READ COMMITTED" = .ok r) ∧
    simulateSetup List.reverse id (some [1, 2, 3]) (some [⟨10, true⟩, ⟨11, true⟩]) 0
        "READ COMMITTED" = .stop (.panic .divideByZero) :=
  have h := C10_setup_never_panics List.reverse id (fun xs => List.length_reverse xs)
    (fun _ => rfl) [1, 2, 3] [⟨10, true⟩, ⟨11, true⟩] "READ COMMITTED" (by decide) (by decide)
  ⟨h.1 30 (by decide), h.2⟩

/-! ## Theorems: the claim protocol on the store -/

theorem attemptCycle_ret_true (c : Cycle) (iso : TxIsoLevel) (e : Option ReserveError)
    (h : (attemptCycle c iso).2 = .ret true e) :
    e = none ∧ c.claim = .value false ∧ ∃ d, c.lock = .row d := by
  unfold attemptCycle at h
  split at h
  · cases h
  · split at h
    · cases h
    · cases h
    · split at h
      · cases h
      · cases h
      · split at h
        · cases h
        · split at h
          · cases h
          · split at h
            · rename_i d _ _ _ _ _
              simp only [CycleEnd.ret.injEq, true_and] at h
              exact ⟨h.symm, by assumption, d, by assumption⟩
            · split at h <;> cases h
            · cases h

theorem tryLoop_ok (store : Nat → Cycle) (rnd : Nat → Nat) (u b : Int) (iso : TxIsoLevel) :
    ∀ (r a : Nat), (tryLoop store rnd u b iso r a).ok = true →
      (tryLoop store rnd u b iso r a).err = none ∧
      ∃ j, (tryLoop store rnd u b iso r a).cycles.length = j + 1 ∧
        (store (a + j)).claim = .value false ∧ ∃ d, (store (a + j)).lock = .row d
  | 0, a, h => by simp [tryLoop] at h
  | r + 1, a, h => by
    cases hc : (attemptCycle (store a) iso).2 with
    | ret ok err =>
      rw [tryLoop_ret _ _ _ _ _ _ _ _ _ hc] at h ⊢
      simp only at h
      subst h
      obtain ⟨he, h1, h2⟩ := attemptCycle_ret_true _ _ _ hc
      exact ⟨he, 0, rfl, by simpa using h1, by simpa using h2⟩
    | continuar =>
      rw [tryLoop_continuar _ _ _ _ _ _ _ hc] at h ⊢
      obtain ⟨he, j, hl, h1, h2⟩ := tryLoop_ok store rnd u b iso r (a + 1) h
      refine ⟨he, j + 1, by simp [hl], ?_, ?_⟩
      · rw [show a + (j + 1) = a + 1 + j by omega]; exact h1
      · rw [show a + (j + 1) = a + 1 + j by omega]; exact h2

theorem observar_claim_false (s : Store) (now : Nat) (u b : Int) (f : Fallas)
    (h : (observar s now u b f).claim = .value false) : tieneReservaActiva s now u = false := by
  unfold observar at h
  simp only at h
  split at h
  · cases h
  · simpa using h

theorem observar_lock_row (s : Store) (now : Nat) (u b : Int) (f : Fallas) (d : Bool)
    (h : (observar s now u b f).lock = .row d) :
    ∃ x ∈ s.batas, x.id_bata = b ∧ x.disponible = true := by
  unfold observar at h
  simp only at h
  split at h
  · cases h
  · split at h
    · cases h
    · split at h
      · cases h
      · rename_i x xs hx
        have hmem : x ∈ selectDisponible s b := by rw [hx]; simp
        unfold selectDisponible at hmem
        rw [List.mem_filter] at hmem
        refine ⟨x, hmem.1, ?_⟩
        simpa using hmem.2

theorem attemptCycle_ret_commit (c : Cycle) (iso : TxIsoLevel) (ok : Bool)
    (e : Option ReserveError) (h : (attemptCycle c iso).2 = .ret ok e)
    (hc : ok = true ∨ ∃ cr, e = some (.confirmar cr)) :
    c.claim = .value false ∧ ∃ d, c.lock = .row d := by
  unfold attemptCycle at h
  split at h
  · cases h
  · split at h
    · cases h
    · simp only [CycleEnd.ret.injEq] at h
      rcases hc with hc | ⟨cr, hc⟩
      · rw [← h.1] at hc; cases hc
      · rw [← h.2] at hc; cases hc
    · split at h
      · simp only [CycleEnd.ret.injEq] at h
        rcases hc with hc | ⟨cr, hc⟩
        · rw [← h.1] at hc; cases hc
        · rw [← h.2] at hc; cases hc
      · cases h
      · rename_i d _
        exact ⟨by assumption, d, by assumption⟩

theorem tryLoop_aplicado (store : Nat → Cycle) (rnd : Nat → Nat) (u b : Int) (iso : TxIsoLevel) :
    ∀ (r a : Nat), (tryLoop store rnd u b iso r a).aplicado = true →
      ∃ j, (tryLoop store rnd u b iso r a).cycles.length = j + 1 ∧
        (store (a + j)).claim = .value false ∧ ∃ d, (store (a + j)).lock = .row d
  | 0, a, h => by simp [tryLoop, Outcome.aplicado] at h
  | r + 1, a, h => by
    cases hc : (attemptCycle (store a) iso).2 with
    | ret ok err =>
      rw [tryLoop_ret _ _ _ _ _ _ _ _ _ hc] at h ⊢
      have hcase : ok = true ∨ ∃ cr, err = some (.confirmar cr) := by
        simp only [Outcome.aplicado, Bool.or_eq_true, decide_eq_true_eq] at h
        rcases h with h | h
        · exact Or.inl h
        · exact Or.inr ⟨_, h⟩
      obtain ⟨h1, h2⟩ := attemptCycle_ret_commit _ _ _ _ hc hcase
      exact ⟨0, rfl, by simpa using h1, by simpa using h2⟩
    | continuar =>
      rw [tryLoop_continuar _ _ _ _ _ _ _ hc] at h ⊢
      obtain ⟨j, hl, h1, h2⟩ := tryLoop_aplicado store rnd u b iso r (a + 1) h
      refine ⟨j + 1, by simp [hl], ?_, ?_⟩
      · rw [show a + (j + 1) = a + 1 + j by omega]; exact h1
      · rw [show a + (j + 1) = a + 1 + j by omega]; exact h2

theorem aplicado_of_ok (o : Outcome) (h : o.ok = true) : o.aplicado = true := by
  simp [Outcome.aplicado, h]

theorem ok_false_of_no_aplicado (o : Outcome) (h : o.aplicado = false) : o.ok = false := by
  simp only [Outcome.aplicado, Bool.or_eq_false_iff] at h
  exact h.1

/-- The effect of one call on the store: either the server committed nothing and the store is
unchanged, or it committed the last transaction of the call, the actor had no active claim
and the resource had an available row when that transaction ran, and the two writes are
applied. -/
theorem reservar_cases (w : Mundo) (u b : Int) (lvl : String) (e : Entorno) :
    w.now ≤ (reservar w u b lvl e).2.now ∧
    (((reservar w u b lvl e).1.aplicado = false ∧ (reservar w u b lvl e).2.store = w.store) ∨
     ((reservar w u b lvl e).1.aplicado = true ∧
      tieneReservaActiva w.store (reservar w u b lvl e).2.now u = false ∧
      (∃ x ∈ w.store.batas, x.id_bata = b ∧ x.disponible = true) ∧
      (reservar w u b lvl e).2.store
        = aplicarReserva w.store (reservar w u b lvl e).2.now u b)) := by
  refine ⟨by simp [reservar], ?_⟩
  cases hap : (reservar w u b lvl e).1.aplicado with
  | false =>
    left
    refine ⟨rfl, ?_⟩
    have : (TryReserveBata (observaciones w u b e) e.rnd u b lvl).aplicado = false := hap
    simp [reservar, storeAfter, this]
  | true =>
    right
    have hap2 : (TryReserveBata (observaciones w u b e) e.rnd u b lvl).aplicado = true := hap
    obtain ⟨j, hl, h1, h2, h3⟩ := tryLoop_aplicado _ _ _ _ _ _ _ hap2
    have hl2 : (TryReserveBata (observaciones w u b e) e.rnd u b lvl).cycles.length = j + 1 := hl
    have hnow : (reservar w u b lvl e).2.now = w.now + e.reloj j := by
      simp [reservar, hl2]
    simp only [Nat.zero_add, observaciones] at h1 h3
    refine ⟨rfl, ?_, observar_lock_row _ _ _ _ _ _ h3, ?_⟩
    · rw [hnow]; exact observar_claim_false _ _ _ _ _ h1
    · simp [reservar, storeAfter, hap2, hl2]

theorem activa_mono (r : Reserva) (t t1 : Nat) (h : t ≤ t1) (ha : r.activa t1 = true) :
    r.activa t = true := by
  unfold Reserva.activa at ha ⊢
  simp only [Bool.and_eq_true, decide_eq_true_eq] at ha ⊢
  exact ⟨ha.1, by omega⟩

theorem reservasActivas_mono (s : Store) (t t1 : Nat) (a : Int) (h : t ≤ t1) :
    (reservasActivas s t1 a).length ≤ (reservasActivas s t a).length := by
  apply List.Sublist.length_le
  apply List.monotone_filter_right
  intro r hr
  simp only [Bool.and_eq_true] at hr ⊢
  exact ⟨hr.1, activa_mono r t t1 h hr.2⟩

theorem reservar_una_activa (w : Mundo) (u b : Int) (lvl : String) (e : Entorno)
    (h : UnaActivaPorActor w.store w.now) :
    UnaActivaPorActor (reservar w u b lvl e).2.store (reservar w u b lvl e).2.now := by
  obtain ⟨hnow, hcase⟩ := reservar_cases w u b lvl e
  intro a
  rcases hcase with ⟨_, hst⟩ | ⟨_, hno, _, hst⟩
  · have := reservasActivas_mono w.store w.now (reservar w u b lvl e).2.now a hnow
    have h2 := h a
    unfold reservasActivas at this h2 ⊢
    rw [hst]
    omega
  · have hmono := reservasActivas_mono w.store w.now (reservar w u b lvl e).2.now a hnow
    have h2 := h a
    unfold reservasActivas at hmono h2 ⊢
    rw [hst]
    simp only [aplicarReserva, List.filter_append, List.length_append]
    by_cases hau : a = u
    · subst hau
      have hz : (w.store.reservas.filter fun r =>
          r.id_estudiante == a && r.activa (reservar w a b lvl e).2.now) = [] := by
        rw [List.filter_eq_nil_iff]
        intro r hr hp
        unfold tieneReservaActiva at hno
        have : (w.store.reservas.any fun r =>
            r.id_estudiante == a && r.activa (reservar w a b lvl e).2.now) = true :=
          List.any_eq_true.2 ⟨r, hr, hp⟩
        rw [hno] at this
        cases this
      rw [hz]
      simp only [List.length_nil, Nat.zero_add]
      exact (List.length_filter_le _ _).trans (by simp)
    · have hnew : ([nuevaReserva (reservar w u b lvl e).2.now u b].filter fun r =>
          r.id_estudiante == a && r.activa (reservar w u b lvl e).2.now) = [] := by
        rw [List.filter_eq_nil_iff]
        intro r hr
        simp only [List.mem_singleton] at hr
        subst hr
        simp [nuevaReserva, Ne.symm hau]
      rw [hnew]
      simp only [List.length_nil, Nat.add_zero]
      omega

theorem ejecutar_una_activa : ∀ (ps : List Peticion) (w : Mundo),
    UnaActivaPorActor w.store w.now →
      UnaActivaPorActor (ejecutar w ps).store (ejecutar w ps).now
  | [], _, h => h
  | p :: ps, w, h =>
    ejecutar_una_activa ps _ (reservar_una_activa w p.userID p.bataID p.isolationLevel p.entorno h)

theorem reservar_reservas_mem (w : Mundo) (u b : Int) (lvl : String) (e : Entorno) (r : Reserva)
    (h : r ∈ w.store.reservas) : r ∈ (reservar w u b lvl e).2.store.reservas := by
  rcases (reservar_cases w u b lvl e).2 with ⟨_, hst⟩ | ⟨_, _, _, hst⟩
  · rw [hst]; exact h
  · rw [hst]; simp [aplicarReserva, h]

theorem ejecutar_reservas_mem (r : Reserva) : ∀ (ps : List Peticion) (w : Mundo),
    r ∈ w.store.reservas → r ∈ (ejecutar w ps).store.reservas
  | [], _, h => h
  | p :: ps, w, h =>
    ejecutar_reservas_mem r ps _ (reservar_reservas_mem w p.userID p.bataID p.isolationLevel
      p.entorno r h)

theorem tieneReservaActiva_of_mem (s : Store) (t : Nat) (u : Int) (r : Reserva)
    (hr : r ∈ s.reservas) (hu : r.id_estudiante = u) (ha : r.activa t = true) :
    tieneReservaActiva s t u = true := by
  unfold tieneReservaActiva
  exact List.any_eq_true.2 ⟨r, hr, by simp [hu, ha]⟩

/-- A call for an actor who holds an active claim during every cycle binds nothing, and
returns `(false, nil)` in the first cycle whose transaction opens and whose active-claim
query succeeds. -/
theorem reservar_con_reserva_activa (w : Mundo) (u b : Int) (lvl : String) (e : Entorno)
    (r : Reserva) (hr : r ∈ w.store.reservas) (hu : r.id_estudiante = u)
    (ha : ∀ n, r.activa (w.now + e.reloj n) = true) :
    (reservar w u b lvl e).1.ok = false ∧ (reservar w u b lvl e).2.store = w.store ∧
    ∀ n, llegaACiclo (observaciones w u b e) lvl n → (e.fallas n).beginFalla = false →
      (e.fallas n).claimFalla = false →
      (reservar w u b lvl e).1.err = none ∧ (reservar w u b lvl e).1.cycles.length = n + 1 := by
  have hap : (reservar w u b lvl e).1.aplicado = false := by
    rcases (reservar_cases w u b lvl e).2 with ⟨h, _⟩ | ⟨hap, hno, -, -⟩
    · exact h
    · exfalso
      have hap2 : (TryReserveBata (observaciones w u b e) e.rnd u b lvl).aplicado = true := hap
      obtain ⟨j, hl, -, -⟩ := tryLoop_aplicado _ _ _ _ _ _ _ hap2
      have hl2 : (TryReserveBata (observaciones w u b e) e.rnd u b lvl).cycles.length = j + 1 := hl
      have hnow : (reservar w u b lvl e).2.now = w.now + e.reloj j := by
        simp [reservar, hl2]
      rw [hnow, tieneReservaActiva_of_mem _ _ _ r hr hu (ha j)] at hno
      cases hno
  have hok : (reservar w u b lvl e).1.ok = false := ok_false_of_no_aplicado _ hap
  refine ⟨hok, ?_, ?_⟩
  · rcases (reservar_cases w u b lvl e).2 with ⟨_, h⟩ | ⟨h, _⟩
    · exact h
    · rw [hap] at h; cases h
  · intro n hreach hb hc
    obtain ⟨pre, k, hlen, -, heq⟩ := TryReserveBata_reach (observaciones w u b e) e.rnd u b lvl n
      hreach
    have hcyc : (attemptCycle (observaciones w u b e n) (txIsoLevel lvl)).2 = .ret false none := by
      simp [attemptCycle, observaciones, observar, hb, hc,
        tieneReservaActiva_of_mem _ _ _ r hr hu (ha n)]
    have hT : (reservar w u b lvl e).1
        = { ok := false, err := none,
            cycles := pre ++ [cycleEvs (observaciones w u b e) e.rnd (txIsoLevel lvl) n] } := by
      show TryReserveBata (observaciones w u b e) e.rnd u b lvl = _
      rw [heq, tryLoop_ret _ _ _ _ _ _ _ _ _ hcyc]
    rw [hT]
    simp [hlen]

theorem observaciones_falla_continua (w : Mundo) (u b : Int) (e : Entorno) (iso : TxIsoLevel)
    (m : Nat) (h : ¬ ((e.fallas m).beginFalla = false ∧ (e.fallas m).claimFalla = false)) :
    (attemptCycle (observaciones w u b e m) iso).2 = .continuar := by
  cases hb : (e.fallas m).beginFalla with
  | true => simp [attemptCycle, observaciones, observar, hb]
  | false =>
    cases hc : (e.fallas m).claimFalla with
    | true => simp [attemptCycle, observaciones, observar, hb, hc]
    | false => exact absurd ⟨hb, hc⟩ h

/-- A call for an actor who holds an active claim during every cycle returns `(false, nil)`
as soon as one cycle below the ceiling opens its transaction and runs the active-claim
query. -/
theorem reservar_con_reserva_activa_nil (w : Mundo) (u b : Int) (lvl : String) (e : Entorno)
    (r : Reserva) (hr : r ∈ w.store.reservas) (hu : r.id_estudiante = u)
    (ha : ∀ n, r.activa (w.now + e.reloj n) = true)
    (hex : ∃ n, n < maxRetries lvl ∧ (e.fallas n).beginFalla = false ∧
      (e.fallas n).claimFalla = false) :
    (reservar w u b lvl e).1.err = none := by
  classical
  have hex2 : ∃ n, n < maxRetries lvl ∧
      ((e.fallas n).beginFalla = false ∧ (e.fallas n).claimFalla = false) := hex
  obtain ⟨hlt, hb, hc⟩ := Nat.find_spec hex2
  have hmin : ∀ m, m < Nat.find hex2 →
      ¬ ((e.fallas m).beginFalla = false ∧ (e.fallas m).claimFalla = false) := by
    intro m hm hcon
    exact Nat.find_min hex2 hm ⟨by omega, hcon⟩
  have hreach : llegaACiclo (observaciones w u b e) lvl (Nat.find hex2) :=
    ⟨hlt, fun m hm => observaciones_falla_continua w u b e _ m (hmin m hm)⟩
  exact ((reservar_con_reserva_activa w u b lvl e r hr hu ha).2.2 _ hreach hb hc).1

/-- C4: with each call of `TryReserveBata` as one atomic step on the store, every sequence of
calls started in a state where every actor has at most one active claim ends in such a state;
the row inserted by a successful call has status 2 and end-time now + 2h30 and is active; and
a later call for the same actor whose transactions start before that end-time binds nothing,
leaves the store unchanged, and returns `(false, nil)` when one of its cycles below the
ceiling opens its transaction and runs the active-claim query. -/
theorem C4_at_most_one_active_claim (w : Mundo) (ps : List Peticion)
    (h : UnaActivaPorActor w.store w.now) :
    UnaActivaPorActor (ejecutar w ps).store (ejecutar w ps).now ∧
    ∀ (u b : Int) (lvl : String) (e : Entorno) (w1 : Mundo),
      w1 = (reservar w u b lvl e).2 → (reservar w u b lvl e).1.ok = true →
      (nuevaReserva w1.now u b ∈ w1.store.reservas ∧
        (nuevaReserva w1.now u b).id_estado = 2 ∧
        (nuevaReserva w1.now u b).fecha_fin = w1.now + h2min30 ∧
        (nuevaReserva w1.now u b).activa w1.now = true) ∧
      ∀ (qs : List Peticion) (w2 : Mundo) (b2 : Int) (lvl2 : String) (e2 : Entorno),
        w2 = ejecutar w1 qs → (∀ n, w2.now + e2.reloj n < w1.now + h2min30) →
        (reservar w2 u b2 lvl2 e2).1.ok = false ∧
        (reservar w2 u b2 lvl2 e2).2.store = w2.store ∧
        ((∃ n, n < maxRetries lvl2 ∧ (e2.fallas n).beginFalla = false ∧
            (e2.fallas n).claimFalla = false) →
          (reservar w2 u b2 lvl2 e2).1.err = none) := by
  refine ⟨ejecutar_una_activa ps w h, ?_⟩
  intro u b lvl e w1 hw1 hok
  have hmem : nuevaReserva w1.now u b ∈ w1.store.reservas := by
    rcases (reservar_cases w u b lvl e).2 with ⟨h0, _⟩ | ⟨_, _, _, hst⟩
    · rw [aplicado_of_ok _ hok] at h0; cases h0
    · rw [hw1, hst]; simp [aplicarReserva]
  have hact : ∀ t, t < w1.now + h2min30 → (nuevaReserva w1.now u b).activa t = true := by
    intro t ht
    simp [Reserva.activa, nuevaReserva, ht]
  refine ⟨⟨hmem, rfl, rfl, hact _ (by simp [h2min30])⟩, ?_⟩
  intro qs w2 b2 lvl2 e2 hw2 htime
  have hmem2 : nuevaReserva w1.now u b ∈ w2.store.reservas := by
    rw [hw2]; exact ejecutar_reservas_mem _ qs w1 hmem
  have h3 := reservar_con_reserva_activa w2 u b2 lvl2 e2 (nuevaReserva w1.now u b) hmem2 rfl
    (fun n => hact _ (htime n))
  exact ⟨h3.1, h3.2.1, fun hex => reservar_con_reserva_activa_nil w2 u b2 lvl2 e2
    (nuevaReserva w1.now u b) hmem2 rfl (fun n => hact _ (htime n)) hex⟩

/-- Witness of C4: actor 7 binds resource 1 of the sample store and then asks for resource 2. -/
theorem C4_at_most_one_active_claim_witness :
    UnaActivaPorActor
      (ejecutar mundoEjemplo
        [⟨7, 1, "SERIALIZABLE", entornoOk⟩, ⟨7, 2, "SERIALIZABLE", entornoOk⟩]).store
      (ejecutar mundoEjemplo
        [⟨7, 1, "SERIALIZABLE", entornoOk⟩, ⟨7, 2, "SERIALIZABLE", entornoOk⟩]).now ∧
    (reservar (reservar mundoEjemplo 7 1 "SERIALIZABLE" entornoOk).2 7 2 "READ COMMITTED"
      entornoOk).1.ok = false ∧
    (reservar (reservar mundoEjemplo 7 1 "SERIALIZABLE" entornoOk).2 7 2 "READ COMMITTED"
      entornoOk).1.err = none :=
  have h := C4_at_most_one_active_claim mundoEjemplo
    [⟨7, 1, "SERIALIZABLE", entornoOk⟩, ⟨7, 2, "SERIALIZABLE", entornoOk⟩]
    (fun _ => Nat.zero_le _)
  have h2 := (h.2 7 1 "SERIALIZABLE" entornoOk _ rfl (by decide)).2 [] _ 2 "READ COMMITTED"
    entornoOk rfl (fun _ => (by decide : (1000 : Nat) + 0 < 1000 + h2min30))
  ⟨h.1, h2.1, h2.2.2 ⟨0, by decide, rfl, rfl⟩⟩

theorem mem_updateNoDisponible (l : List Bata) (b : Int) (x : Bata)
    (h : x ∈ updateNoDisponible l b) :
    (x.id_bata = b ∧ x.disponible = false) ∨ (x.id_bata ≠ b ∧ x ∈ l) := by
  unfold updateNoDisponible at h
  rw [List.mem_map] at h
  obtain ⟨y, hy, hxy⟩ := h
  by_cases hb : y.id_bata = b
  · left
    simp only [hb, beq_self_eq_true, if_true] at hxy
    subst hxy
    exact ⟨rfl, rfl⟩
  · right
    have : (y.id_bata == b) = false := by simpa using hb
    simp only [this] at hxy
    simp only [Bool.false_eq_true, if_false] at hxy
    subst hxy
    exact ⟨hb, hy⟩

theorem resetStore_inv (s : Store) : InvPrueba (resetStore s) := by
  intro b
  have hnil : reservasPruebaDeBata (resetStore s) b = [] := by
    unfold reservasPruebaDeBata resetStore
    rw [List.filter_eq_nil_iff]
    intro r hr
    rw [List.mem_filter] at hr
    have := hr.2
    simp only [Bool.not_eq_true', beq_eq_false_iff_ne, ne_eq] at this
    simp [this]
  rw [hnil]
  exact ⟨Nat.zero_le _, fun h => absurd rfl h⟩

theorem reservar_inv (w : Mundo) (u b : Int) (lvl : String) (e : Entorno)
    (h : InvPrueba w.store) : InvPrueba (reservar w u b lvl e).2.store := by
  rcases (reservar_cases w u b lvl e).2 with ⟨_, hst⟩ | ⟨_, _, ⟨x, hx, hxb, hxd⟩, hst⟩
  · rw [hst]; exact h
  · rw [hst]
    have hbnil : reservasPruebaDeBata w.store b = [] := by
      by_contra hne
      have := (h b).2 hne x hx hxb
      rw [hxd] at this
      cases this
    intro b1
    by_cases hb1 : b1 = b
    · subst hb1
      constructor
      · unfold reservasPruebaDeBata at hbnil ⊢
        simp [aplicarReserva, List.filter_append, hbnil, nuevaReserva]
      · intro _ y hy hyb
        rcases mem_updateNoDisponible _ _ _ hy with ⟨_, hd⟩ | ⟨hne, _⟩
        · exact hd
        · exact absurd hyb hne
    · have hsame : reservasPruebaDeBata (aplicarReserva w.store (reservar w u b lvl e).2.now u b)
          b1 = reservasPruebaDeBata w.store b1 := by
        unfold reservasPruebaDeBata
        simp [aplicarReserva, List.filter_append, nuevaReserva, Ne.symm hb1]
      rw [hsame]
      refine ⟨(h b1).1, fun hne y hy hyb => ?_⟩
      rcases mem_updateNoDisponible _ _ _ hy with ⟨hyb2, _⟩ | ⟨_, hmem⟩
      · exact absurd (hyb.symm.trans hyb2) hb1
      · exact (h b1).2 hne y hmem hyb

theorem ejecutar_inv : ∀ (ps : List Peticion) (w : Mundo),
    InvPrueba w.store → InvPrueba (ejecutar w ps).store
  | [], _, h => h
  | p :: ps, w, h =>
    ejecutar_inv ps _ (reservar_inv w p.userID p.bataID p.isolationLevel p.entorno h)

theorem reservar_soloPrueba (w : Mundo) (u b : Int) (lvl : String) (e : Entorno)
    (h : SoloPrueba w.store) : SoloPrueba (reservar w u b lvl e).2.store := by
  rcases (reservar_cases w u b lvl e).2 with ⟨_, hst⟩ | ⟨_, _, _, hst⟩
  · rw [hst]; exact h
  · rw [hst]
    intro r hr
    simp only [aplicarReserva, List.mem_append, List.mem_singleton] at hr
    rcases hr with hr | hr
    · exact h r hr
    · rw [hr]; rfl

theorem ejecutar_soloPrueba : ∀ (ps : List Peticion) (w : Mundo),
    SoloPrueba w.store → SoloPrueba (ejecutar w ps).store
  | [], _, h => h
  | p :: ps, w, h =>
    ejecutar_soloPrueba ps _ (reservar_soloPrueba w p.userID p.bataID p.isolationLevel
      p.entorno h)

theorem eq_of_mem_length_le_one {α : Type} (l : List α) (h : l.length ≤ 1) (a b : α)
    (ha : a ∈ l) (hb : b ∈ l) : a = b := by
  match l, h with
  | [], _ => cases ha
  | [x], _ =>
    simp only [List.mem_singleton] at ha hb
    rw [ha, hb]
  | _ :: _ :: _, h => simp at h

theorem sinDobleReservaPrueba_of_inv (s : Store) (h : InvPrueba s) :
    SinDobleReservaPrueba s := by
  refine ⟨fun b => (h b).1, ?_, ?_⟩
  · intro r hr hlab x hx hxb
    have hmem : r ∈ reservasPruebaDeBata s r.id_bata := by
      unfold reservasPruebaDeBata
      rw [List.mem_filter]
      exact ⟨hr, by simp [hlab]⟩
    exact (h r.id_bata).2 (List.ne_nil_of_mem hmem) x hx hxb
  · intro r1 h1 r2 h2 hl1 hl2 hb
    have hm1 : r1 ∈ reservasPruebaDeBata s r1.id_bata := by
      unfold reservasPruebaDeBata
      rw [List.mem_filter]
      exact ⟨h1, by simp [hl1]⟩
    have hm2 : r2 ∈ reservasPruebaDeBata s r1.id_bata := by
      unfold reservasPruebaDeBata
      rw [List.mem_filter]
      exact ⟨h2, by simp [hl2, hb]⟩
    rw [eq_of_mem_length_le_one _ (h r1.id_bata).1 r1 r2 hm1 hm2]

theorem sinDobleReserva_of_prueba (s : Store) (hs : SoloPrueba s)
    (h : SinDobleReservaPrueba s) : SinDobleReserva s := by
  obtain ⟨h1, h2, h3⟩ := h
  refine ⟨fun b => ?_, fun r hr x hx hxb => h2 r hr (hs r hr) x hx hxb,
    fun r1 hr1 r2 hr2 hb => h3 r1 hr1 r2 hr2 (hs r1 hr1) (hs r2 hr2) hb⟩
  have : reservasDeBata s b = reservasPruebaDeBata s b := by
    unfold reservasDeBata reservasPruebaDeBata
    apply List.filter_congr
    intro r hr
    simp [hs r hr]
  rw [this]
  exact h1 b

/-- C5 (as stated) fails: after `ResetBatas` a claim row of another laboratory still references
resource 1, which is now available; a call for actor 8 then binds it, so two claim rows of two
distinct actors reference resource 1. -/
theorem C5_counterexample :
    ResetBatas none storeOtroLaboratorio
      = (none, { batas := [⟨1, true⟩],
                 reservas := [{ id_estudiante := 7, id_bata := 1, id_laboratorio := 2,
                                id_estado := 2, fecha_solicitud := 0, fecha_inicio := 0,
                                fecha_fin := 5000 }] }) ∧
    ¬ SinDobleReserva (ejecutar ⟨(ResetBatas none storeOtroLaboratorio).2, 1000⟩ []).store ∧
    (reservar ⟨(ResetBatas none storeOtroLaboratorio).2, 1000⟩ 8 1 "READ COMMITTED"
      entornoOk).1.ok = true ∧
    (reservasDeBata (ejecutar ⟨(ResetBatas none storeOtroLaboratorio).2, 1000⟩
      [⟨8, 1, "READ COMMITTED", entornoOk⟩]).store 1).map Reserva.id_estudiante = [7, 8] ∧
    ¬ SinDobleReserva (ejecutar ⟨(ResetBatas none storeOtroLaboratorio).2, 1000⟩
      [⟨8, 1, "READ COMMITTED", entornoOk⟩]).store := by
  refine ⟨by decide, ?_, by decide, by decide, ?_⟩
  · intro h
    have := h.2.1 ⟨7, 1, 2, 2, 0, 0, 5000⟩ (by decide) ⟨1, true⟩ (by decide) rfl
    cases this
  · intro h
    have := h.1 1
    revert this
    decide

/-- C5 (amended): with each call of `TryReserveBata` as one atomic step, `ResetBatas` leaves
every resource available and no test claim row (`id_laboratorio = 1`), and after any sequence
of calls from there each resource is referenced by at most one test claim row, a resource is
referenced by a test claim row only if every row of it has `disponible = false`, and test
claim rows on the same resource belong to the same actor; when the table held only test claim
rows before the reset, the same holds for all claim rows. -/
theorem C5_no_double_binding (s0 : Store) (t0 : Nat) (ps : List Peticion) :
    (ResetBatas none s0).1 = none ∧
    (∀ x ∈ (ResetBatas none s0).2.batas, x.disponible = true) ∧
    (∀ r ∈ (ResetBatas none s0).2.reservas, r.id_laboratorio ≠ 1) ∧
    SinDobleReservaPrueba (ejecutar ⟨(ResetBatas none s0).2, t0⟩ ps).store ∧
    (SoloPrueba s0 → SinDobleReserva (ejecutar ⟨(ResetBatas none s0).2, t0⟩ ps).store) := by
  have hinv : InvPrueba (ejecutar ⟨resetStore s0, t0⟩ ps).store :=
    ejecutar_inv ps ⟨resetStore s0, t0⟩ (resetStore_inv s0)
  refine ⟨rfl, ?_, ?_, sinDobleReservaPrueba_of_inv _ hinv, fun hs => ?_⟩
  · intro x hx
    simp only [ResetBatas, resetStore, List.mem_map] at hx
    obtain ⟨y, _, rfl⟩ := hx
    rfl
  · intro r hr
    simp only [ResetBatas, resetStore, List.mem_filter] at hr
    simpa using hr.2
  · have hs0 : SoloPrueba (resetStore s0) := by
      intro r hr
      simp only [resetStore, List.mem_filter] at hr
      exact hs r hr.1
    exact sinDobleReserva_of_prueba _ (ejecutar_soloPrueba ps ⟨resetStore s0, t0⟩ hs0)
      (sinDobleReservaPrueba_of_inv _ hinv)

/-- Witness of C5: two actors ask for resource 1 after a reset of the sample store. -/
theorem C5_no_double_binding_witness :
    SinDobleReservaPrueba (ejecutar ⟨(ResetBatas none storeEjemplo).2, 1000⟩
      [⟨7, 1, "SERIALIZABLE", entornoOk⟩, ⟨8, 1, "SERIALIZABLE", entornoOk⟩]).store ∧
    SinDobleReserva (ejecutar ⟨(ResetBatas none storeEjemplo).2, 1000⟩
      [⟨7, 1, "SERIALIZABLE", entornoOk⟩, ⟨8, 1, "SERIALIZABLE", entornoOk⟩]).store :=
  have h := C5_no_double_binding storeEjemplo 1000
    [⟨7, 1, "SERIALIZABLE", entornoOk⟩, ⟨8, 1, "SERIALIZABLE", entornoOk⟩]
  ⟨h.2.2.2.1, h.2.2.2.2 (fun _ hr => nomatch hr)⟩

/-! ## Theorems: the run of the workers -/

theorem updateNoDisponible_ids (l : List Bata) (b : Int) :
    (updateNoDisponible l b).map Bata.id_bata = l.map Bata.id_bata := by
  unfold updateNoDisponible
  rw [List.map_map]
  apply List.map_congr_left
  intro x _
  simp only [Function.comp]
  split <;> rfl

theorem updateNoDisponible_cons (x : Bata) (xs : List Bata) (b : Int) :
    updateNoDisponible (x :: xs) b
      = (if x.id_bata == b then { x with disponible := false } else x)
          :: updateNoDisponible xs b := rfl

theorem updateNoDisponible_absent (b : Int) : ∀ (l : List Bata),
    b ∉ l.map Bata.id_bata → updateNoDisponible l b = l
  | [], _ => rfl
  | x :: xs, h => by
    simp only [List.map_cons, List.mem_cons, not_or] at h
    have ih := updateNoDisponible_absent b xs h.2
    have : (x.id_bata == b) = false := by simpa using Ne.symm h.1
    rw [updateNoDisponible_cons, ih, this]
    rfl

theorem updateNoDisponible_count (b : Int) : ∀ (l : List Bata),
    (l.map Bata.id_bata).Nodup → (∃ x ∈ l, x.id_bata = b ∧ x.disponible = true) →
      ((updateNoDisponible l b).filter fun y => y.disponible).length + 1
        = (l.filter fun y => y.disponible).length
  | [], _, h => by obtain ⟨x, hx, _⟩ := h; cases hx
  | x :: xs, hnd, h => by
    simp only [List.map_cons, List.nodup_cons] at hnd
    by_cases hxb : x.id_bata = b
    · have habs : b ∉ xs.map Bata.id_bata := by rw [← hxb]; exact hnd.1
      have hxd : x.disponible = true := by
        obtain ⟨y, hy, hyb, hyd⟩ := h
        rcases List.mem_cons.1 hy with rfl | hy2
        · exact hyd
        · exact absurd (List.mem_map.2 ⟨y, hy2, hyb⟩) habs
      have hbeq : (x.id_bata == b) = true := by simpa using hxb
      rw [updateNoDisponible_cons, updateNoDisponible_absent b xs habs, hbeq]
      simp [List.filter_cons, hxd]
    · have hex : ∃ y ∈ xs, y.id_bata = b ∧ y.disponible = true := by
        obtain ⟨y, hy, hyb, hyd⟩ := h
        rcases List.mem_cons.1 hy with rfl | hy2
        · exact absurd hyb hxb
        · exact ⟨y, hy2, hyb, hyd⟩
      have ih := updateNoDisponible_count b xs hnd.2 hex
      have hne : (x.id_bata == b) = false := by simpa using hxb
      rw [updateNoDisponible_cons, hne]
      simp only [Bool.false_eq_true, if_false]
      by_cases hd : x.disponible = true
      · simp only [List.filter_cons, hd, if_true, List.length_cons]
        omega
      · simp only [List.filter_cons, hd, if_false]
        exact ih

theorem mapSet_length {β : Type} (m : List (Int × β)) (k : Int) (v : β)
    (h : ∀ e ∈ m, e.1 ≠ k) : (mapSet m k v).length = m.length + 1 := by
  unfold mapSet
  have : (m.filter fun e => !(e.1 == k)) = m := by
    rw [List.filter_eq_self]
    intro e he
    simpa using h e he
  rw [this, List.length_cons]

theorem mapSet_mem {β : Type} (m : List (Int × β)) (k : Int) (v : β) (e : Int × β)
    (h : e ∈ mapSet m k v) : e ∈ m ∨ e.1 = k := by
  unfold mapSet at h
  rcases List.mem_cons.1 h with rfl | h2
  · exact Or.inr rfl
  · exact Or.inl (List.mem_filter.1 h2).1

theorem attemptCycle_err_confirmar (c : Cycle) (iso : TxIsoLevel) (ok : Bool) (cr : CommitRes)
    (h : (attemptCycle c iso).2 = .ret ok (some (.confirmar cr))) : c.commit = cr := by
  unfold attemptCycle at h
  split at h
  · cases h
  · split at h
    · cases h
    · cases h
    · split at h
      · cases h
      · cases h
      · split at h
        · cases h
        · split at h
          · cases h
          · split at h
            · cases h
            · rename_i hcm
              split at h
              · cases h
              · cases h; exact hcm
            · rename_i hcm
              cases h; exact hcm

theorem tryLoop_err_confirmar (store : Nat → Cycle) (rnd : Nat → Nat) (u b : Int)
    (iso : TxIsoLevel) (cr : CommitRes) :
    ∀ (r a : Nat), (tryLoop store rnd u b iso r a).err = some (.confirmar cr) →
      ∃ j, (store (a + j)).commit = cr
  | 0, a, h => by simp [tryLoop] at h
  | r + 1, a, h => by
    cases hc : (attemptCycle (store a) iso).2 with
    | ret ok err =>
      rw [tryLoop_ret _ _ _ _ _ _ _ _ _ hc] at h
      simp only at h
      subst h
      exact ⟨0, by simpa using attemptCycle_err_confirmar _ _ _ _ hc⟩
    | continuar =>
      rw [tryLoop_continuar _ _ _ _ _ _ _ hc] at h
      obtain ⟨j, hj⟩ := tryLoop_err_confirmar store rnd u b iso cr r (a + 1) h
      exact ⟨j + 1, by rw [show a + (j + 1) = a + 1 + j by omega]; exact hj⟩

/-- When no commit of the call errs after the server has committed, the writes of the call
are in the store exactly when it returns `(true, nil)`. -/
theorem reservar_aplicado_ok (w : Mundo) (u b : Int) (lvl : String) (e : Entorno)
    (hsin : SinCommitOculto e) :
    (reservar w u b lvl e).1.aplicado = (reservar w u b lvl e).1.ok := by
  cases herr : decide ((reservar w u b lvl e).1.err = some (.confirmar (.otherError true))) with
  | false => simp [Outcome.aplicado, herr]
  | true =>
    exfalso
    have herr2 : (TryReserveBata (observaciones w u b e) e.rnd u b lvl).err
        = some (.confirmar (.otherError true)) := by simpa using herr
    obtain ⟨j, hj⟩ := tryLoop_err_confirmar _ _ _ _ _ _ _ _ herr2
    exact hsin (0 + j) (by simpa [observaciones, observar] using hj)

/-- What the `TryReserveBata` call of a worker does to the key of `batas` and to the number of
available rows: one row less exactly when the worker enters its `if success` block. -/
theorem intentar_spec (w : Mundo) (id bID : Int) (lvl : String) (e : Entorno)
    (hclave : ClaveBatas w.store) (hsin : SinCommitOculto e) :
    ClaveBatas (intentar w id bID lvl e).1.store ∧
    (if (intentar w id bID lvl e).2 then 1 else 0) + numDisponibles (intentar w id bID lvl e).1.store
      = numDisponibles w.store := by
  have hapok := reservar_aplicado_ok w id bID lvl e hsin
  rcases (reservar_cases w id bID lvl e).2 with ⟨hap, hst⟩ | ⟨hap, _, hex, hst⟩
  · have hok : (reservar w id bID lvl e).1.ok = false := by rw [← hapok]; exact hap
    have hI : intentar w id bID lvl e = ((reservar w id bID lvl e).2, false) := by
      unfold intentar
      simp only [hok]
      split <;> simp
    rw [hI]
    refine ⟨?_, ?_⟩
    · show ClaveBatas (reservar w id bID lvl e).2.store
      rw [hst]; exact hclave
    · show (if false = true then 1 else 0) + numDisponibles (reservar w id bID lvl e).2.store = _
      rw [hst]; simp
  · have hok : (reservar w id bID lvl e).1.ok = true := by rw [← hapok]; exact hap
    have herr : (reservar w id bID lvl e).1.err = none :=
      (tryLoop_ok _ _ _ _ _ _ _ hok).1
    have hI : intentar w id bID lvl e = ((reservar w id bID lvl e).2, true) := by
      unfold intentar
      simp [hok, herr]
    rw [hI]
    refine ⟨?_, ?_⟩
    · show ClaveBatas (reservar w id bID lvl e).2.store
      rw [hst]
      unfold ClaveBatas aplicarReserva
      simp only
      rw [updateNoDisponible_ids]
      exact hclave
    · show (if true = true then 1 else 0) + numDisponibles (reservar w id bID lvl e).2.store = _
      rw [hst]
      have := updateNoDisponible_count bID w.store.batas hclave hex
      unfold numDisponibles aplicarReserva
      simp only [if_true]
      omega

theorem countP_set {α : Type} (p : α → Bool) : ∀ (l : List α) (i : Nat) (x y : α),
    l[i]? = some x →
      (l.set i y).countP p + (if p x then 1 else 0) = l.countP p + (if p y then 1 else 0)
  | [], i, x, y, h => by simp at h
  | a :: l, 0, x, y, h => by
    simp only [List.getElem?_cons_zero, Option.some.injEq] at h
    subst h
    simp only [List.set_cons_zero, List.countP_cons]
    omega
  | a :: l, i + 1, x, y, h => by
    simp only [List.getElem?_cons_succ] at h
    have ih := countP_set p l i x y h
    simp only [List.set_cons_succ, List.countP_cons]
    omega

theorem pasoOk_sin_cambio (w : Mundo) (asg : List (Int × Int)) (id : Int) (f f1 : Fase)
    (hclave : ClaveBatas w.store) (hf : f1.esFin = false → f.esFin = false)
    (hp : f.porRegistrar = false) (hp1 : f1.porRegistrar = false) :
    PasoOk w asg id f (w, asg, f1) :=
  ⟨hclave, by simp [hp, hp1], fun _ hx => Or.inl hx, fun h => ⟨hf h, rfl⟩⟩

theorem pasoOk_intentar (w : Mundo) (asg : List (Int × Int)) (id bID : Int) (lvl : String)
    (e : Entorno) (f f1 : Fase) (m : Mensaje) (hclave : ClaveBatas w.store)
    (hsin : SinCommitOculto e) (hf : f.esFin = false) (hp : f.porRegistrar = false)
    (hp1 : f1.porRegistrar = false) :
    PasoOk w asg id f
      ((intentar w id bID lvl e).1, asg,
        if (intentar w id bID lvl e).2 then Fase.registrando bID m else f1) := by
  obtain ⟨h1, h2⟩ := intentar_spec w id bID lvl e hclave hsin
  refine ⟨h1, ?_, fun _ hx => Or.inl hx, fun _ => ⟨hf, rfl⟩⟩
  have hreg : (Fase.registrando bID m).porRegistrar = true := rfl
  cases hb : (intentar w id bID lvl e).2 with
  | false =>
    rw [hb] at h2
    simp only [Bool.false_eq_true, if_false, hp, hp1] at h2 ⊢
    omega
  | true =>
    rw [hb] at h2
    simp only [if_true, hp, hreg, Bool.false_eq_true, if_false] at h2 ⊢
    omega

theorem pasoTrabajador_spec (cfg : Setup) (lvl : String) (id : Int) (occ : Nat) (w : Mundo)
    (asg : List (Int × Int)) (f : Fase) (p : Paso) (hclave : ClaveBatas w.store)
    (hsin : SinCommitOculto p.entorno)
    (hid : f.esFin = false → ∀ x ∈ asg, x.1 ≠ id) :
    PasoOk w asg id f (pasoTrabajador cfg lvl id occ w asg f p) := by
  cases f with
  | esperando =>
    simp only [pasoTrabajador]
    split <;> exact pasoOk_sin_cambio _ _ _ _ _ hclave (fun _ => rfl) rfl rfl
  | preferidas rest =>
    cases rest with
    | nil => exact pasoOk_sin_cambio _ _ _ _ _ hclave (fun _ => rfl) rfl rfl
    | cons bID rest => exact pasoOk_intentar _ _ _ _ _ _ _ _ _ hclave hsin rfl rfl rfl
  | scan attempt =>
    simp only [pasoTrabajador]
    split
    · split
      · exact pasoOk_sin_cambio _ _ _ _ _ hclave (fun _ => rfl) rfl rfl
      · split <;> exact pasoOk_sin_cambio _ _ _ _ _ hclave (fun _ => rfl) rfl rfl
    · exact pasoOk_sin_cambio _ _ _ _ _ hclave (fun _ => rfl) rfl rfl
  | scanBatas attempt rest =>
    cases rest with
    | nil =>
      simp only [pasoTrabajador]
      split <;> exact pasoOk_sin_cambio _ _ _ _ _ hclave (fun _ => rfl) rfl rfl
    | cons bID rest => exact pasoOk_intentar _ _ _ _ _ _ _ _ _ hclave hsin rfl rfl rfl
  | agresivo attempt bataTry =>
    simp only [pasoTrabajador]
    split
    · split <;> exact pasoOk_sin_cambio _ _ _ _ _ hclave (fun _ => rfl) rfl rfl
    · exact pasoOk_sin_cambio _ _ _ _ _ hclave (fun _ => rfl) rfl rfl
  | agresivoBatas attempt bataTry rest =>
    cases rest with
    | nil => exact pasoOk_sin_cambio _ _ _ _ _ hclave (fun _ => rfl) rfl rfl
    | cons bID rest => exact pasoOk_intentar _ _ _ _ _ _ _ _ _ hclave hsin rfl rfl rfl
  | registrando bID m =>
    refine ⟨hclave, ?_, fun x hx => mapSet_mem _ _ _ _ hx, fun h => by cases h⟩
    show (mapSet asg id bID).length + 0 + numDisponibles w.store
      = asg.length + 1 + numDisponibles w.store
    rw [mapSet_length _ _ _ (hid rfl)]
  | fin m => exact pasoOk_sin_cambio _ _ _ _ _ hclave (fun h => h) rfl rfl

theorem pasoCorrida_inv (cfg : Setup) (lvl : String) (n0 : Nat) (c : Corrida) (p : Paso)
    (husers : cfg.users.Nodup) (hsin : SinCommitOculto p.entorno) (h : InvCorrida cfg n0 c) :
    InvCorrida cfg n0 (pasoCorrida cfg lvl c p) := by
  obtain ⟨hclave, hsum, hlen, hfin⟩ := h
  unfold pasoCorrida
  split
  · rename_i id f hu hf
    have hspec := pasoTrabajador_spec cfg lvl id (c.fases.countP Fase.ocupa)
      { c.mundo with now := c.mundo.now + p.espera } c.assignments f p hclave hsin
      (fun hnf => hfin p.actor id f hu hf hnf)
    obtain ⟨h1, h2, h3, h4⟩ := hspec
    have hilt : p.actor < cfg.users.length := (List.getElem?_eq_some_iff.1 hu).1
    have hcnt := countP_set Fase.porRegistrar c.fases p.actor f
      (pasoTrabajador cfg lvl id (c.fases.countP Fase.ocupa)
        { c.mundo with now := c.mundo.now + p.espera } c.assignments f p).2.2 hf
    refine ⟨h1, ?_, by simp only [List.length_set]; exact hlen, ?_⟩
    · simp only at h2 hcnt ⊢
      omega
    · intro j idj fj huj hfj hnf e he
      simp only at hfj he
      by_cases hji : p.actor = j
      · subst hji
        rw [List.getElem?_set_self (by rw [hlen]; exact hilt)] at hfj
        have hfj2 := Option.some.inj hfj
        subst hfj2
        obtain ⟨hnf0, hasg⟩ := h4 hnf
        rw [hasg] at he
        have : idj = id := Option.some.inj (huj.symm.trans hu)
        subst this
        exact hfin p.actor idj f hu hf hnf0 e he
      · rw [List.getElem?_set_ne hji] at hfj
        rcases h3 e he with hmem | heid
        · exact hfin j idj fj huj hfj hnf e hmem
        · rw [heid]
          intro hcon
          apply hji
          exact List.getElem?_inj hilt husers (by rw [hu, huj, hcon])
  · exact ⟨hclave, hsum, hlen, hfin⟩

theorem correr_inv (cfg : Setup) (lvl : String) (n0 : Nat) (husers : cfg.users.Nodup) :
    ∀ (ps : List Paso) (c : Corrida), (∀ p ∈ ps, SinCommitOculto p.entorno) →
      InvCorrida cfg n0 c → InvCorrida cfg n0 (correr cfg lvl c ps)
  | [], _, _, h => h
  | p :: ps, c, hs, h =>
    correr_inv cfg lvl n0 husers ps _ (fun q hq => hs q (List.mem_cons_of_mem _ hq))
      (pasoCorrida_inv cfg lvl n0 c p husers (hs p (List.mem_cons_self _ _)) h)

theorem inicio_inv (cfg : Setup) (w : Mundo) (hclave : ClaveBatas w.store) :
    InvCorrida cfg (numDisponibles w.store) (inicio cfg w) := by
  refine ⟨hclave, ?_, by simp [inicio], fun _ _ _ _ _ _ e he => by cases he⟩
  have : (cfg.users.map fun _ => Fase.esperando).countP Fase.porRegistrar = 0 := by
    rw [List.countP_eq_zero]
    intro f hf
    rw [List.mem_map] at hf
    obtain ⟨_, _, rfl⟩ := hf
    simp [Fase.porRegistrar]
  show ([] : List (Int × Int)).length
    + (cfg.users.map fun _ => Fase.esperando).countP Fase.porRegistrar
    + numDisponibles w.store = numDisponibles w.store
  rw [this]
  simp

theorem countP_porRegistrar_of_all_fin (l : List Fase) (h : l.all Fase.esFin = true) :
    l.countP Fase.porRegistrar = 0 := by
  rw [List.countP_eq_zero]
  intro f hf
  have := List.all_eq_true.1 h f hf
  cases f <;> simp_all [Fase.esFin, Fase.porRegistrar]

theorem disponibles_length (s : Store) : (disponibles s).length = numDisponibles s := by
  unfold disponibles numDisponibles
  rw [List.length_insertionSort]

theorem simulateSetup_initialBatas (barajarUsuarios barajarBatas : List Int → List Int)
    (estudiantes : Option (List Int)) (initial : Option (List Bata)) (userCount : Int)
    (lvl : String) (r : Setup)
    (h : simulateSetup barajarUsuarios barajarBatas estudiantes initial userCount lvl = .ok r) :
    initial = some r.initialBatas := by
  unfold simulateSetup at h
  split at h
  · cases h
  · simp only at h
    split at h
    · cases h
    · split at h
      · cases h
      · split at h
        · cases h
        · split at h
          · cases h
          · split at h
            · cases h
            · cases h; rfl

/-- Conservation in runs without the two failures that break it: for a run whose set-up
succeeds on a store where `id_bata` is a key, with pairwise distinct selected actors, under
every schedule in which no commit errs after the server has committed, the entries of the
assignments map, the workers between their commit and their map write, and the available
resources add up to `len(initialBatas)` at every point; and at the end of
`SimulateConcurrentReservations`, when the final `GetAvailableBatas` read succeeds, the number
of entries equals `len(initialBatas) - len(finalBatas)`. -/
theorem SimulateConcurrentReservations_conserva
    (barajarUsuarios barajarBatas : List Int → List Int)
    (estudiantes : Option (List Int)) (w : Mundo) (userCount : Int) (lvl : String)
    (pasos : List Paso) (cfg : Setup)
    (hsetup : simulateSetup barajarUsuarios barajarBatas estudiantes
      (GetAvailableBatas false w.store) userCount lvl = .ok cfg)
    (hclave : ClaveBatas w.store) (husers : cfg.users.Nodup)
    (hsin : ∀ p ∈ pasos, SinCommitOculto p.entorno) :
    (correr cfg lvl (inicio cfg w) pasos).assignments.length
        + (correr cfg lvl (inicio cfg w) pasos).fases.countP Fase.porRegistrar
        + numDisponibles (correr cfg lvl (inicio cfg w) pasos).mundo.store
      = cfg.initialBatas.length ∧
    ∀ (r : Resumen),
      SimulateConcurrentReservations barajarUsuarios barajarBatas estudiantes w false userCount
          lvl pasos false = .ok (some r) →
        r.exitosas = (correr cfg lvl (inicio cfg w) pasos).assignments.length ∧
        (r.exitosas : Int) = r.reservadas := by
  have hinit : cfg.initialBatas.length = numDisponibles w.store := by
    have h := simulateSetup_initialBatas _ _ _ _ _ _ _ hsetup
    simp only [GetAvailableBatas, Bool.false_eq_true, if_false, Option.some.injEq] at h
    rw [← h, disponibles_length]
  have hinv := correr_inv cfg lvl (numDisponibles w.store) husers pasos (inicio cfg w) hsin
    (inicio_inv cfg w hclave)
  have hsum := hinv.2.1
  refine ⟨by rw [hinit]; exact hsum, ?_⟩
  intro r hr
  unfold SimulateConcurrentReservations at hr
  rw [hsetup] at hr
  simp only [Res.ok.injEq] at hr
  unfold resumen at hr
  split at hr
  · rename_i hall
    have hpend := countP_porRegistrar_of_all_fin _ hall
    simp only [Option.some.injEq] at hr
    subst hr
    refine ⟨rfl, ?_⟩
    simp only [GetAvailableBatas, Bool.false_eq_true, if_false, Option.getD_some,
      disponibles_length]
    omega
  · cases hr

/-- A commit that errs after the server has committed leaves a resource bound without a map
entry: worker 0 passes the gate, its call for resource 1 returns the wrapped commit error
although the transaction is in the store, and its next call, for resource 2, returns
`(false, nil)` because actor 7 now holds an active claim. -/
theorem commit_oculto_ejemplo :
    (correr cfgEjemplo "READ COMMITTED" (inicio cfgEjemplo mundoCuatro)
      [pasoDe 0, pasoCommitOculto 0, pasoDe 0]).assignments = [] ∧
    numDisponibles (correr cfgEjemplo "READ COMMITTED" (inicio cfgEjemplo mundoCuatro)
      [pasoDe 0, pasoCommitOculto 0, pasoDe 0]).mundo.store = 3 ∧
    (correr cfgEjemplo "READ COMMITTED" (inicio cfgEjemplo mundoCuatro)
      [pasoDe 0, pasoCommitOculto 0, pasoDe 0]).fases
      = [Fase.preferidas [], Fase.esperando] := by
  decide

/-- C6: at the failing input, a run of two actors on four available resources in which both
workers bind their first preferred resource and the final `GetAvailableBatas` read fails, the
error of that read is discarded, `finalBatas` is empty and the summary has
`reserved = len(initialBatas) - 0 = 4`, while the assignments map holds 2 entries and 2
resources are available in the store; the same run with a successful final read has
`reserved = 2`. -/
theorem C6_final_read_error_breaks_conservation :
    simulateSetup id id (some [7, 8, 9]) (GetAvailableBatas false mundoCuatro.store) 2
        "READ COMMITTED" = .ok cfgEjemplo ∧
    SimulateConcurrentReservations id id (some [7, 8, 9]) mundoCuatro false 2 "READ COMMITTED"
        planEjemplo true
      = .ok (some { exitosas := 2, disponiblesFinal := 0, reservadas := 4 }) ∧
    (correr cfgEjemplo "READ COMMITTED" (inicio cfgEjemplo mundoCuatro)
      planEjemplo).assignments = [(8, 3), (7, 1)] ∧
    numDisponibles (correr cfgEjemplo "READ COMMITTED" (inicio cfgEjemplo mundoCuatro)
      planEjemplo).mundo.store = 2 ∧
    SimulateConcurrentReservations id id (some [7, 8, 9]) mundoCuatro false 2 "READ COMMITTED"
        planEjemplo false
      = .ok (some { exitosas := 2, disponiblesFinal := 2, reservadas := 2 }) := by
  decide

end Reservas
